import Mathlib

/-!
# UaScript 2.0 bytecode core: a shallow embedding

This file embeds the bytecode core of the UaScript 2.0 interpreter
(TypeScript sources: `bytecode.ts`, `vm.ts`, `serializer.ts`,
`deserializer.ts`, `compiler.ts`, `parser.ts`, `tokens.ts`, `stdlib.ts`)
into Lean 4, and proves or refutes the specification claims about it.

Modelling conventions, used throughout:

* JavaScript `number` payloads are modelled as `ℚ` (exact arithmetic;
  IEEE-754 rounding of doubles is not modelled, and no theorem below
  depends on a payload value that rounding could change).
* Fallible code (`throw` in TS) returns `Except String _`.
* JS reference semantics matter only for upvalue cells and instance
  field maps; those are modelled with an explicit heap of cells inside
  the VM state, addressed by `Nat`.  Lists and maps are modelled as
  immutable values: no claim exercises in-place list mutation.
* TS `enum OpCode` members are plain numbers at runtime; opcodes are
  modelled as `Nat` constants with the source's names and values.
-/

/-! ## Bytecode data model (bytecode.ts) -/

namespace OpCode

abbrev NOP : Nat := 0x00
abbrev LOAD_CONST : Nat := 0x01
abbrev LOAD_VAR : Nat := 0x02
abbrev STORE_VAR : Nat := 0x03
abbrev LOAD_GLOBAL : Nat := 0x04
abbrev STORE_GLOBAL : Nat := 0x05
abbrev POP : Nat := 0x06
abbrev DUP : Nat := 0x07
abbrev ADD : Nat := 0x10
abbrev SUB : Nat := 0x11
abbrev MUL : Nat := 0x12
abbrev DIV : Nat := 0x13
abbrev MOD : Nat := 0x14
abbrev POW : Nat := 0x15
abbrev NEG : Nat := 0x16
abbrev EQ : Nat := 0x20
abbrev NE : Nat := 0x21
abbrev LT : Nat := 0x22
abbrev GT : Nat := 0x23
abbrev LE : Nat := 0x24
abbrev GE : Nat := 0x25
abbrev AND : Nat := 0x30
abbrev OR : Nat := 0x31
abbrev NOT : Nat := 0x32
abbrev JUMP : Nat := 0x40
abbrev JUMP_IF_FALSE : Nat := 0x41
abbrev JUMP_IF_TRUE : Nat := 0x42
abbrev CALL : Nat := 0x50
abbrev RETURN : Nat := 0x51
abbrev MAKE_FUNCTION : Nat := 0x52
abbrev MAKE_CLOSURE : Nat := 0x53
abbrev LOAD_UPVALUE : Nat := 0x54
abbrev STORE_UPVALUE : Nat := 0x55
abbrev MAKE_LIST : Nat := 0x60
abbrev MAKE_MAP : Nat := 0x61
abbrev GET_INDEX : Nat := 0x62
abbrev SET_INDEX : Nat := 0x63
abbrev GET_ATTR : Nat := 0x64
abbrev SET_ATTR : Nat := 0x65
abbrev MAKE_CLASS : Nat := 0x66
abbrev NEW_INSTANCE : Nat := 0x67
abbrev MATCH_VALUE : Nat := 0x70
abbrev MATCH_TYPE : Nat := 0x71
abbrev MATCH_RANGE : Nat := 0x72
abbrev PRINT : Nat := 0x80
abbrev HALT : Nat := 0xFF

end OpCode

/-- `interface Instruction { op: OpCode; arg?: number }`.  The operand is
optional in the source (`arg?`), hence `Option Nat` here. -/
structure Instruction where
  op : Nat
  arg : Option Nat
deriving DecidableEq, Repr

/-- `interface Upvalue { isLocal: boolean; index: number }`: an upvalue
descriptor of a compiled function. -/
structure Upvalue where
  isLocal : Bool
  index : Nat
deriving DecidableEq, Repr

/-- `interface CompiledFunction` from bytecode.ts. -/
structure CompiledFunction where
  name : String
  arity : Nat
  localCount : Nat
  upvalueCount : Nat
  upvalues : List Upvalue
  code : List Instruction
deriving DecidableEq, Repr

/-- `interface BuiltinFunction { name; arity; fn }`.  The `fn` payload is a
host-language function; per the specification (§1) standard-library bodies
are external collaborators, so the body is not part of this model (the VM
model evaluates builtin calls through `builtinImpl` below). -/
structure BuiltinFunction where
  name : String
  arity : Int
deriving DecidableEq, Repr

/-- The `CompiledFunction | BuiltinFunction` union stored in a function
value; the source discriminates by `'fn' in v` / `'code' in v`. -/
inductive FunctionValue where
  | compiled (f : CompiledFunction)
  | builtin (b : BuiltinFunction)
deriving DecidableEq, Repr

/-- `interface ClassDef { name; fields; methods: Map<string, CompiledFunction> }`.
The insertion-ordered JS `Map` is modelled as an association list. -/
structure ClassDef where
  name : String
  fields : List String
  methods : List (String × CompiledFunction)
deriving DecidableEq, Repr

/-- The tagged runtime `Value` union from bytecode.ts.

`closure` carries cell *addresses* into the VM's cell heap (the TS cells
are shared mutable objects; sharing is identity of addresses here).
`inst` likewise carries the address of its mutable field map.  The TS
constructor names `function`, `class` and `instance` are kept as
`function`, `cls` and `inst` (the latter two words are reserved in Lean). -/
inductive Value where
  | int (value : ℚ)
  | float (value : ℚ)
  | string (value : String)
  | bool (value : Bool)
  | none
  | list (value : List Value)
  | map (value : List (String × Value))
  | function (value : FunctionValue)
  | closure (fn : CompiledFunction) (cells : List Nat)
  | boundMethod (receiver : Value) (method : CompiledFunction)
  | cls (value : ClassDef)
  | inst (classDef : ClassDef) (addr : Nat)

/-- `interface CompiledModule` from bytecode.ts. -/
structure CompiledModule where
  constants : List Value
  globals : List String
  functions : List CompiledFunction
  mainCode : List Instruction

/-- `isTruthy` from bytecode.ts: booleans by value, numbers by `≠ 0`,
strings/lists by non-emptiness, `none` false, everything else true. -/
def isTruthy : Value → Bool
  | .bool b => b
  | .none => false
  | .int v => v != 0
  | .float v => v != 0
  | .string s => s.length > 0
  | .list xs => xs.length > 0
  | _ => true

/-- Rendering of a numeric payload.  JS `String(number)` prints decimal
notation; this model prints the exact rational.  No theorem depends on the
rendering of a number. -/
def numToString (q : ℚ) : String :=
  if q.den = 1 then toString q.num else toString q.num ++ "/" ++ toString q.den

mutual

/-- `valueToString` from bytecode.ts (display form of a value).
In the source the `function` case tests `typeof v.value === 'function'`,
which is false for both record shapes, so both compiled and builtin
functions print their `name` field. -/
def valueToString : Value → String
  | .int v => numToString v
  | .float v => numToString v
  | .string s => s
  | .bool b => if b then "true" else "false"
  | .none => "none"
  | .list xs => "[" ++ String.intercalate ", " (valueToStringList xs) ++ "]"
  | .map entries => "\x7b" ++ String.intercalate ", " (valueToStringEntries entries) ++ "\x7d"
  | .function (.compiled f) => "<функція " ++ f.name ++ ">"
  | .function (.builtin b) => "<функція " ++ b.name ++ ">"
  | .closure f _ => "<замикання " ++ f.name ++ ">"
  | .boundMethod _ m => "<метод " ++ m.name ++ ">"
  | .cls c => "<клас " ++ c.name ++ ">"
  | .inst c _ => "<" ++ c.name ++ " instance>"

def valueToStringList : List Value → List String
  | [] => []
  | v :: vs => valueToString v :: valueToStringList vs

def valueToStringEntries : List (String × Value) → List String
  | [] => []
  | (k, v) :: rest => (k ++ ": " ++ valueToString v) :: valueToStringEntries rest

end

/-! ## JS number helpers

`%` and `Math.pow` on JS numbers, restricted to the exact-rational
fragment this model can express. -/

/-- Truncation toward zero, as JS coerces in `%`. -/
def jsTrunc (q : ℚ) : Int := if 0 ≤ q then ⌊q⌋ else ⌈q⌉

/-- Tag test used when modelling TS `a.type === 'string'` guards. -/
def Value.isString : Value → Bool
  | .string _ => true
  | _ => false

/-- Tag test: does the value carry the integer tag? -/
def Value.isInt : Value → Bool
  | .int _ => true
  | _ => false

/-- Tag test: does the value carry the float tag? -/
def Value.isFloat : Value → Bool
  | .float _ => true
  | _ => false

/-- JS remainder `a % b` for `b ≠ 0`: `a - b * trunc(a / b)` (sign follows
the dividend). -/
def jsRem (a b : ℚ) : ℚ := a - b * (jsTrunc (a / b) : ℚ)

/-- `Math.pow(a, b)` on the integer-exponent fragment.  A fractional
exponent produces an irrational double in JS, which exact rationals cannot
express; the model returns `0` there.  The VM tags such results `float`,
and no theorem below constrains that payload. -/
def jsPow (a b : ℚ) : ℚ := if b.den = 1 then a ^ b.num else 0

namespace VM

/-- `VM.add`: int+int stays int; numeric mix is float; any string operand
concatenates display forms; list+list concatenates. -/
def add : Value → Value → Except String Value
  | .int a, .int b => .ok (.int (a + b))
  | .int a, .float b => .ok (.float (a + b))
  | .float a, .int b => .ok (.float (a + b))
  | .float a, .float b => .ok (.float (a + b))
  | .string a, .string b => .ok (.string (a ++ b))
  | a, b =>
    if a.isString ∨ b.isString then
      .ok (.string (valueToString a ++ valueToString b))
    else match a, b with
      | .list xs, .list ys => .ok (.list (xs ++ ys))
      | _, _ => .error "Cannot add"

/-- `VM.sub`: int−int stays int; any numeric mix is float; otherwise error. -/
def sub : Value → Value → Except String Value
  | .int a, .int b => .ok (.int (a - b))
  | .int a, .float b => .ok (.float (a - b))
  | .float a, .int b => .ok (.float (a - b))
  | .float a, .float b => .ok (.float (a - b))
  | _, _ => .error "Cannot subtract"

/-- `VM.mul`: int·int stays int; numeric mix is float; string·int repeats
the string. -/
def mul : Value → Value → Except String Value
  | .int a, .int b => .ok (.int (a * b))
  | .int a, .float b => .ok (.float (a * b))
  | .float a, .int b => .ok (.float (a * b))
  | .float a, .float b => .ok (.float (a * b))
  | .string s, .int n =>
    if n < 0 then .error "Invalid count value"
    else .ok (.string (String.join (List.replicate (jsTrunc n).toNat s)))
  | _, _ => .error "Cannot multiply"

/-- `VM.div`: any two numbers divide to a `float` (JS `/`); zero divisor is
an error.  Note the source *always* wraps the quotient in `Val.float`,
integer operands included. -/
def div : Value → Value → Except String Value
  | .int a, .int b => if b = 0 then .error "Division by zero" else .ok (.float (a / b))
  | .int a, .float b => if b = 0 then .error "Division by zero" else .ok (.float (a / b))
  | .float a, .int b => if b = 0 then .error "Division by zero" else .ok (.float (a / b))
  | .float a, .float b => if b = 0 then .error "Division by zero" else .ok (.float (a / b))
  | _, _ => .error "Cannot divide"

/-- `VM.mod`: defined only on two ints; zero divisor is an error. -/
def mod : Value → Value → Except String Value
  | .int a, .int b => if b = 0 then .error "Modulo by zero" else .ok (.int (jsRem a b))
  | _, _ => .error "Cannot mod"

/-- `VM.pow`: `Math.pow` on two numbers; the result is tagged `int`
exactly when both operands are ints and the exponent is non-negative. -/
def pow : Value → Value → Except String Value
  | .int a, .int b => if 0 ≤ b then .ok (.int (jsPow a b)) else .ok (.float (jsPow a b))
  | .int a, .float b => .ok (.float (jsPow a b))
  | .float a, .int b => .ok (.float (jsPow a b))
  | .float a, .float b => .ok (.float (jsPow a b))
  | _, _ => .error "Cannot pow"

mutual

/-- `VM.equals`: same tag required; `none == none`; primitive payloads by
`===`; lists element-wise; every other tag compares unequal. -/
def equals : Value → Value → Bool
  | .none, .none => true
  | .int a, .int b => a == b
  | .float a, .float b => a == b
  | .bool a, .bool b => a == b
  | .string a, .string b => a == b
  | .list xs, .list ys => xs.length == ys.length && listEquals xs ys
  | _, _ => false

def listEquals : List Value → List Value → Bool
  | [], [] => true
  | x :: xs, y :: ys => equals x y && listEquals xs ys
  | _, _ => false

end

/-- `VM.compare`: numeric difference for two numbers, lexicographic sign
for two strings (the source's `localeCompare` is modelled as lexicographic
comparison), error otherwise. -/
def compare : Value → Value → Except String ℚ
  | .int a, .int b => .ok (a - b)
  | .int a, .float b => .ok (a - b)
  | .float a, .int b => .ok (a - b)
  | .float a, .float b => .ok (a - b)
  | .string a, .string b =>
    .ok (if a < b then -1 else if a = b then 0 else 1)
  | _, _ => .error "Cannot compare"

end VM

/-! ## VM state (vm.ts)

The TS `VM` object holds mutable fields; the model threads an explicit
`VMState`.  Upvalue cells — the shared mutable objects that realize
closures — live in the heap `cells : List Value`, addressed by position;
a frame's or closure's upvalue vector stores addresses.  A frame upvalue
slot is `Option Nat` because the TS array may contain holes (`none` = no
cell object at that slot).  Instance field maps live in `instHeap`,
likewise addressed by position (a TS instance is a shared mutable object). -/

/-- `interface CallFrame` from vm.ts. -/
structure CallFrame where
  fn : CompiledFunction
  ip : Nat
  stackBase : Nat
  locals : List Value
  upvalues : List (Option Nat)

/-- The VM's mutable state.  `stack` and `frames` have their *top/current*
element at the head.  `globals` is the name-keyed JS `Map`; its key type is
`Option String` because a global-slot operand beyond the `globalNames`
table makes the TS code use `undefined` as the map key (modelled `none`). -/
structure VMState where
  stack : List Value
  globals : List (Option String × Value)
  frames : List CallFrame
  constants : List Value
  globalNames : List String
  cells : List Value
  instHeap : List (List (String × Value))
  output : List String

/-- JS `Map.get`: first (unique) matching entry. -/
def mapGet (m : List (Option String × Value)) (k : Option String) : Option Value :=
  (m.find? (fun e => e.1 == k)).map (·.2)

/-- JS `Map.set`: replace the existing entry for the key in place, else
append. -/
def mapSet (m : List (Option String × Value)) (k : Option String) (v : Value) :
    List (Option String × Value) :=
  match m with
  | [] => [(k, v)]
  | (k', v') :: rest => if k' == k then (k, v) :: rest else (k', v') :: mapSet rest k v

/-- JS `Map.get` on a string-keyed map (instance fields, class methods). -/
def smapGet {α : Type} (m : List (String × α)) (k : String) : Option α :=
  (m.find? (fun e => e.1 == k)).map (·.2)

/-- JS `Map.set` on a string-keyed map. -/
def smapSet {α : Type} (m : List (String × α)) (k : String) (v : α) : List (String × α) :=
  match m with
  | [] => [(k, v)]
  | (k', v') :: rest => if k' == k then (k, v) :: rest else (k', v') :: smapSet rest k v

namespace VM

/-- `VM.pop`: underflow is an error. -/
def pop (s : List Value) : Except String (Value × List Value) :=
  match s with
  | [] => .error "Stack underflow"
  | v :: rest => .ok (v, rest)

/-- `VM.peek`. -/
def peek (s : List Value) : Except String Value :=
  match s with
  | [] => .error "Stack is empty"
  | v :: _ => .ok v

/-- Pop `n` values; the returned list is top-first. -/
def popN : Nat → List Value → Except String (List Value × List Value)
  | 0, s => .ok ([], s)
  | n + 1, s => do
    let (v, s') ← pop s
    let (vs, s'') ← popN n s'
    .ok (v :: vs, s'')

/-- Grow a locals vector with `none` up to and including index `i`, then
set slot `i` (the `while (locals.length <= arg) push(none)` loop of
`STORE_VAR`). -/
def storeLocal (locals : List Value) (i : Nat) (v : Value) : List Value :=
  (locals ++ List.replicate (i + 1 - locals.length) Value.none).set i v

/-- Grow an upvalue-slot vector with holes up to and including index `i`
(JS assignment to an out-of-range index leaves holes below it). -/
def padSlots (slots : List (Option Nat)) (i : Nat) : List (Option Nat) :=
  slots ++ List.replicate (i + 1 - slots.length) Option.none

/-- Modelled from the spec: standard-library function bodies are external
collaborators (§1, "specified only as a named-function registry"), so a
builtin call's result is abstracted; no claim below invokes a builtin. -/
def builtinImpl (_b : BuiltinFunction) (_args : List Value) : Value := Value.none

/-- One instruction either continues in a new state or halts with a value
(the TS `Value | undefined` return of `executeInstruction`, merged with
the driver's own exits). -/
inductive StepOut where
  | next (st : VMState)
  | halted (v : Value)

/-- `MAKE_CLOSURE`'s capture loop: for each of the first `n` descriptors,
`isLocal` allocates a fresh cell holding the current frame's local (missing
locals read as `none`), otherwise the current frame's cell at that index is
*shared*; a missing frame cell is replaced by a fresh `none` cell (the
`?? { value: Val.none() }` fallback), which is allocated but not written
back to the frame. -/
def captureCells (frame : CallFrame) : List Upvalue → List Value → (List Nat × List Value)
  | [], heap => ([], heap)
  | desc :: rest, heap =>
    if desc.isLocal then
      let value := frame.locals.getD desc.index Value.none
      let addr := heap.length
      let (cells, heap') := captureCells frame rest (heap ++ [value])
      (addr :: cells, heap')
    else
      match frame.upvalues.getD desc.index Option.none with
      | some a =>
        let (cells, heap') := captureCells frame rest heap
        (a :: cells, heap')
      | none =>
        let addr := heap.length
        let (cells, heap') := captureCells frame rest (heap ++ [Value.none])
        (addr :: cells, heap')

/-- `VM.executeInstruction` from vm.ts: the big opcode switch.  The current
frame is the head of `frames` and its `ip` has already been advanced by the
driver.  Cases where the TS code would push `undefined` and crash at the
*next* use (out-of-range constant index, missing operand) are surfaced as
errors at the faulting instruction instead; no compiler-emitted bytecode
hits them. -/
def executeInstruction (instr : Instruction) (st : VMState) : Except String StepOut :=
  match st.frames with
  | [] => .error "no active frame"
  | frame :: restFrames =>
    let op := instr.op
    if op = OpCode.NOP then
      .ok (.next st)
    else if op = OpCode.HALT then
      .ok (.halted (st.stack.headD .none))
    else if op = OpCode.LOAD_CONST then
      match instr.arg with
      | some a =>
        match st.constants.get? a with
        | some c => .ok (.next { st with stack := c :: st.stack })
        | none => .error "constant index out of range"
      | none => .error "missing operand"
    else if op = OpCode.LOAD_VAR then
      match instr.arg with
      | some a => .ok (.next { st with stack := frame.locals.getD a Value.none :: st.stack })
      | none => .error "missing operand"
    else if op = OpCode.STORE_VAR then
      match instr.arg with
      | some a => do
        let (v, s) ← pop st.stack
        let frame' := { frame with locals := storeLocal frame.locals a v }
        .ok (.next { st with stack := s, frames := frame' :: restFrames })
      | none => .error "missing operand"
    else if op = OpCode.LOAD_GLOBAL then
      match instr.arg with
      | some a =>
        let name := st.globalNames.get? a
        .ok (.next { st with stack := (mapGet st.globals name).getD Value.none :: st.stack })
      | none => .error "missing operand"
    else if op = OpCode.STORE_GLOBAL then
      match instr.arg with
      | some a => do
        let name := st.globalNames.get? a
        let (v, s) ← pop st.stack
        .ok (.next { st with stack := s, globals := mapSet st.globals name v })
      | none => .error "missing operand"
    else if op = OpCode.POP then do
      let (_, s) ← pop st.stack
      .ok (.next { st with stack := s })
    else if op = OpCode.DUP then do
      let v ← peek st.stack
      .ok (.next { st with stack := v :: st.stack })
    else if op = OpCode.ADD then do
      let (b, s1) ← pop st.stack
      let (a, s2) ← pop s1
      let r ← add a b
      .ok (.next { st with stack := r :: s2 })
    else if op = OpCode.SUB then do
      let (b, s1) ← pop st.stack
      let (a, s2) ← pop s1
      let r ← sub a b
      .ok (.next { st with stack := r :: s2 })
    else if op = OpCode.MUL then do
      let (b, s1) ← pop st.stack
      let (a, s2) ← pop s1
      let r ← mul a b
      .ok (.next { st with stack := r :: s2 })
    else if op = OpCode.DIV then do
      let (b, s1) ← pop st.stack
      let (a, s2) ← pop s1
      let r ← div a b
      .ok (.next { st with stack := r :: s2 })
    else if op = OpCode.MOD then do
      let (b, s1) ← pop st.stack
      let (a, s2) ← pop s1
      let r ← mod a b
      .ok (.next { st with stack := r :: s2 })
    else if op = OpCode.POW then do
      let (b, s1) ← pop st.stack
      let (a, s2) ← pop s1
      let r ← pow a b
      .ok (.next { st with stack := r :: s2 })
    else if op = OpCode.NEG then do
      let (v, s) ← pop st.stack
      match v with
      | .int q => .ok (.next { st with stack := Value.int (-q) :: s })
      | .float q => .ok (.next { st with stack := Value.float (-q) :: s })
      | _ => .error "Cannot negate non-number"
    else if op = OpCode.EQ then do
      let (b, s1) ← pop st.stack
      let (a, s2) ← pop s1
      .ok (.next { st with stack := Value.bool (equals a b) :: s2 })
    else if op = OpCode.NE then do
      let (b, s1) ← pop st.stack
      let (a, s2) ← pop s1
      .ok (.next { st with stack := Value.bool (!(equals a b)) :: s2 })
    else if op = OpCode.LT then do
      let (b, s1) ← pop st.stack
      let (a, s2) ← pop s1
      let c ← compare a b
      .ok (.next { st with stack := Value.bool (decide (c < 0)) :: s2 })
    else if op = OpCode.GT then do
      let (b, s1) ← pop st.stack
      let (a, s2) ← pop s1
      let c ← compare a b
      .ok (.next { st with stack := Value.bool (decide (0 < c)) :: s2 })
    else if op = OpCode.LE then do
      let (b, s1) ← pop st.stack
      let (a, s2) ← pop s1
      let c ← compare a b
      .ok (.next { st with stack := Value.bool (decide (c ≤ 0)) :: s2 })
    else if op = OpCode.GE then do
      let (b, s1) ← pop st.stack
      let (a, s2) ← pop s1
      let c ← compare a b
      .ok (.next { st with stack := Value.bool (decide (0 ≤ c)) :: s2 })
    else if op = OpCode.AND then do
      let (b, s1) ← pop st.stack
      let (a, s2) ← pop s1
      .ok (.next { st with stack := Value.bool (isTruthy a && isTruthy b) :: s2 })
    else if op = OpCode.OR then do
      let (b, s1) ← pop st.stack
      let (a, s2) ← pop s1
      .ok (.next { st with stack := Value.bool (isTruthy a || isTruthy b) :: s2 })
    else if op = OpCode.NOT then do
      let (v, s) ← pop st.stack
      .ok (.next { st with stack := Value.bool (!(isTruthy v)) :: s })
    else if op = OpCode.JUMP then
      match instr.arg with
      | some a => .ok (.next { st with frames := { frame with ip := a } :: restFrames })
      | none => .error "missing operand"
    else if op = OpCode.JUMP_IF_FALSE then
      match instr.arg with
      | some a => do
        let (cond, s) ← pop st.stack
        if isTruthy cond then .ok (.next { st with stack := s })
        else .ok (.next { st with stack := s, frames := { frame with ip := a } :: restFrames })
      | none => .error "missing operand"
    else if op = OpCode.JUMP_IF_TRUE then
      match instr.arg with
      | some a => do
        let (cond, s) ← pop st.stack
        if isTruthy cond then
          .ok (.next { st with stack := s, frames := { frame with ip := a } :: restFrames })
        else .ok (.next { st with stack := s })
      | none => .error "missing operand"
    else if op = OpCode.CALL then
      match instr.arg with
      | some argc => do
        let (callee, s0) ← pop st.stack
        match callee with
        | .boundMethod receiver method => do
          -- The source builds args by `splice(1, 0, pop())` repeatedly
          -- (yielding declaration order after the receiver) and then the
          -- `fix order` line reverses everything after the receiver.
          let (popped, s1) ← popN argc s0
          let afterLoop := receiver :: popped.reverse
          let args :=
            match afterLoop with
            | r :: tail => r :: tail.reverse
            | [] => []
          if argc + 1 ≠ method.arity then
            .error ("Method expected " ++ toString (method.arity - 1) ++ " args, got "
              ++ toString argc)
          else
            let newFrame : CallFrame :=
              { fn := method, ip := 0, stackBase := s1.length,
                locals := args, upvalues := [] }
            .ok (.next { st with
              stack := s1, frames := newFrame :: frame :: restFrames })
        | .closure fn cells =>
          if argc ≠ fn.arity then
            .error ("Expected " ++ toString fn.arity ++ " args, got " ++ toString argc)
          else do
            let (popped, s1) ← popN argc s0
            let args := popped.reverse
            let newFrame : CallFrame :=
              { fn := fn, ip := 0, stackBase := s1.length,
                locals := args, upvalues := cells.map some }
            .ok (.next { st with
              stack := s1, frames := newFrame :: frame :: restFrames })
        | .function (.builtin b) => do
          let (popped, s1) ← popN argc s0
          let args := popped.reverse
          .ok (.next { st with stack := builtinImpl b args :: s1 })
        | .function (.compiled fn) =>
          if argc ≠ fn.arity then
            .error ("Expected " ++ toString fn.arity ++ " args, got " ++ toString argc)
          else do
            let (popped, s1) ← popN argc s0
            let args := popped.reverse
            let newFrame : CallFrame :=
              { fn := fn, ip := 0, stackBase := s1.length,
                locals := args, upvalues := [] }
            .ok (.next { st with
              stack := s1, frames := newFrame :: frame :: restFrames })
        | _ => .error "Cannot call"
      | none => .error "missing operand"
    else if op = OpCode.RETURN then do
      let (returnValue, s) ← pop st.stack
      match restFrames with
      | [] => .ok (.halted returnValue)
      | _ => .ok (.next { st with stack := returnValue :: s, frames := restFrames })
    else if op = OpCode.MAKE_CLOSURE then
      match instr.arg with
      | some upvalueCount => do
        let (fnValue, s) ← pop st.stack
        match fnValue with
        | .function (.compiled fn) =>
          if fn.upvalues.length < upvalueCount then
            .error "MAKE_CLOSURE missing upvalue descriptor"
          else
            let (cells, heap') := captureCells frame (fn.upvalues.take upvalueCount) st.cells
            .ok (.next { st with
              stack := Value.closure fn cells :: s, cells := heap' })
        | _ => .error "MAKE_CLOSURE expects a compiled function"
      | none => .error "missing operand"
    else if op = OpCode.LOAD_UPVALUE then
      match instr.arg with
      | some idx =>
        match frame.upvalues.getD idx Option.none with
        | some a => .ok (.next { st with stack := st.cells.getD a Value.none :: st.stack })
        | none => .ok (.next { st with stack := Value.none :: st.stack })
      | none => .error "missing operand"
    else if op = OpCode.STORE_UPVALUE then
      match instr.arg with
      | some idx => do
        let (v, s) ← pop st.stack
        match frame.upvalues.getD idx Option.none with
        | some a =>
          .ok (.next { st with stack := s, cells := st.cells.set a v })
        | none =>
          -- `if (!frame.upvalues[idx]) frame.upvalues[idx] = { value: none }`
          -- then the fresh cell's value is overwritten with `v`.
          let addr := st.cells.length
          let frame' := { frame with upvalues := (padSlots frame.upvalues idx).set idx (some addr) }
          .ok (.next { st with
            stack := s, cells := st.cells ++ [v], frames := frame' :: restFrames })
      | none => .error "missing operand"
    else if op = OpCode.MAKE_LIST then
      match instr.arg with
      | some n => do
        let (popped, s) ← popN n st.stack
        .ok (.next { st with stack := Value.list popped.reverse :: s })
      | none => .error "missing operand"
    else if op = OpCode.GET_INDEX then do
      let (index, s1) ← pop st.stack
      let (obj, s2) ← pop s1
      match obj, index with
      | .list xs, .int i =>
        if i < 0 ∨ (xs.length : ℚ) ≤ i then .error "Index out of bounds"
        else .ok (.next { st with stack := xs.getD (jsTrunc i).toNat Value.none :: s2 })
      | .string str, .int i =>
        if i < 0 ∨ (str.length : ℚ) ≤ i then .error "Index out of bounds"
        else .ok (.next { st with
          stack := Value.string (String.mk [str.toList.getD (jsTrunc i).toNat ' ']) :: s2 })
      | _, _ => .error "Cannot index"
    else if op = OpCode.GET_ATTR then
      match instr.arg with
      | some a =>
        match st.constants.get? a with
        | some (.string name) => do
          let (obj, s) ← pop st.stack
          match obj with
          | .inst classDef addr =>
            let fields := st.instHeap.getD addr []
            match smapGet fields name with
            | some field => .ok (.next { st with stack := field :: s })
            | none =>
              match smapGet classDef.methods name with
              | some method =>
                .ok (.next { st with stack := Value.boundMethod obj method :: s })
              | none => .error ("Unknown field/method: " ++ name)
          | .list xs =>
            if name = "length" ∨ name = "довжина" then
              .ok (.next { st with stack := Value.int (xs.length : ℚ) :: s })
            else .error ("Unknown list method: " ++ name)
          | .string str =>
            if name = "length" ∨ name = "довжина" then
              .ok (.next { st with stack := Value.int (str.length : ℚ) :: s })
            else .error ("Unknown string method: " ++ name)
          | _ => .error "Cannot get attr"
        | some _ => .error "Attr name must be string"
        | none => .error "constant index out of range"
      | none => .error "missing operand"
    else if op = OpCode.SET_ATTR then
      match instr.arg with
      | some a =>
        match st.constants.get? a with
        | some (.string name) => do
          let (obj, s1) ← pop st.stack
          let (value, s2) ← pop s1
          match obj with
          | .inst _ addr =>
            let fields := st.instHeap.getD addr []
            .ok (.next { st with
              stack := s2, instHeap := st.instHeap.set addr (smapSet fields name value) })
          | _ => .error "Cannot set attr"
        | some _ => .error "Attr name must be string"
        | none => .error "constant index out of range"
      | none => .error "missing operand"
    else if op = OpCode.SET_INDEX then do
      -- Lists are immutable values in this model; the TS in-place element
      -- write to the (shared) array is validated here but its aliasing
      -- effect is not modelled.  No claim exercises SET_INDEX.
      let (index, s1) ← pop st.stack
      let (obj, s2) ← pop s1
      let (_value, s3) ← pop s2
      match obj, index with
      | .list xs, .int i =>
        if i < 0 ∨ (xs.length : ℚ) ≤ i then .error "Index out of bounds"
        else .ok (.next { st with stack := s3 })
      | _, _ => .error "Cannot set index"
    else if op = OpCode.NEW_INSTANCE then
      match instr.arg with
      | some argc => do
        let (classVal, s0) ← pop st.stack
        match classVal with
        | .cls classDef => do
          let (popped, s1) ← popN argc s0
          let args := popped.reverse
          let fields := (classDef.fields.zip args).foldl
            (fun m e => smapSet m e.1 e.2) []
          let addr := st.instHeap.length
          .ok (.next { st with
            stack := Value.inst classDef addr :: s1,
            instHeap := st.instHeap ++ [fields] })
        | _ => .error "Cannot instantiate"
      | none => .error "missing operand"
    else if op = OpCode.PRINT then
      match instr.arg with
      | some argc =>
        if st.stack.length < argc then .error "PRINT underflow"
        else
          let line := String.intercalate " " ((st.stack.take argc).map valueToString)
          .ok (.next { st with stack := st.stack.drop argc, output := st.output ++ [line] })
      | none => .error "missing operand"
    else
      .error ("Unknown opcode: " ++ toString op)

/-- One iteration of `VM.execute`'s driver loop: exit when no frame
remains; pop a frame whose `ip` ran off the end of its code (returning the
stack top if it was the last); otherwise fetch the instruction, advance
`ip`, and execute, wrapping any error with the function name and the
pre-advance `ip`. -/
def step (st : VMState) : Except String StepOut :=
  match st.frames with
  | [] => .ok (.halted (st.stack.headD .none))
  | frame :: restFrames =>
    match frame.fn.code.get? frame.ip with
    | none =>
      match restFrames with
      | [] => .ok (.halted (st.stack.headD .none))
      | _ => .ok (.next { st with frames := restFrames })
    | some instr =>
      let st' := { st with frames := { frame with ip := frame.ip + 1 } :: restFrames }
      match executeInstruction instr st' with
      | .ok r => .ok r
      | .error e =>
        .error ("Runtime error at " ++ frame.fn.name ++ ":" ++ toString frame.ip ++ ": " ++ e)

/-- Run the driver loop.  The fuel argument is a model artifact (the TS
loop is unbounded); every concrete run below is given ample fuel and no
theorem concerns fuel exhaustion. -/
def runLoop : Nat → VMState → Except String Value
  | 0, _ => .error "out of fuel"
  | n + 1, st =>
    match step st with
    | .error e => .error e
    | .ok (.halted v) => .ok v
    | .ok (.next st') => runLoop n st'

/-- Run exactly `n` driver iterations and return the resulting state
(stopping early only at halt or error); used to inspect intermediate
stacks. -/
def runSteps : Nat → VMState → Except String VMState
  | 0, st => .ok st
  | n + 1, st =>
    match step st with
    | .error e => .error e
    | .ok (.halted _) => .ok st
    | .ok (.next st') => runSteps n st'

end VM

/-- The standard-library registry (stdlib.ts): insertion-ordered name →
builtin bindings, bilingual aliases sharing one builtin.  Bodies are
external (§1); only names and arities are part of the model. -/
def STDLIB : List (Option String × Value) :=
  let entry := fun (n : String) (a : Int) => (some n, Value.function (.builtin ⟨n, a⟩))
  let also := fun (n : String) (c : String) (a : Int) =>
    (some n, Value.function (.builtin ⟨c, a⟩))
  [entry "абс" 1, also "abs" "абс" 1,
   entry "корінь" 1, also "sqrt" "корінь" 1,
   entry "мін" 2, also "min" "мін" 2,
   entry "макс" 2, also "max" "макс" 2,
   entry "округлити" 1, also "round" "округлити" 1,
   entry "підлога" 1, also "floor" "підлога" 1,
   entry "стеля" 1, also "ceil" "стеля" 1,
   entry "довжина" 1, also "len" "довжина" 1, also "length" "довжина" 1,
   entry "верхній" 1, also "upper" "верхній" 1,
   entry "нижній" 1, also "lower" "нижній" 1,
   entry "обрізати" 1, also "trim" "обрізати" 1,
   entry "розділити" 2, also "split" "розділити" 2,
   entry "зєднати" 2, also "join" "зєднати" 2,
   entry "ціле" 1, also "int" "ціле" 1,
   entry "дріб" 1, also "float" "дріб" 1,
   entry "текст" 1, also "str" "текст" 1, also "string" "текст" 1,
   entry "булеве" 1, also "bool" "булеве" 1,
   entry "діапазон" (-1), also "range" "діапазон" (-1),
   entry "сума" 1, also "sum" "сума" 1,
   entry "ввід" 1, also "input" "ввід" 1,
   entry "тип" 1, also "type" "тип" 1, also "typeof" "тип" 1]

namespace VM

/-- `VM.run`: install the standard library and the module's functions into
the globals map, then start a `__main__` frame over `mainCode`. -/
def initState (module : CompiledModule) : VMState :=
  let globals0 := STDLIB.foldl (fun m e => mapSet m e.1 e.2) []
  let globals1 := module.functions.foldl
    (fun m fn => mapSet m (some fn.name) (Value.function (.compiled fn))) globals0
  let mainFn : CompiledFunction :=
    { name := "__main__", arity := 0, localCount := 0, upvalueCount := 0,
      upvalues := [], code := module.mainCode }
  { stack := [], globals := globals1,
    frames := [{ fn := mainFn, ip := 0, stackBase := 0, locals := [], upvalues := [] }],
    constants := module.constants, globalNames := module.globals,
    cells := [], instHeap := [], output := [] }

/-- `VM.run` followed by `execute`, with fuel. -/
def runModule (fuel : Nat) (module : CompiledModule) : Except String Value :=
  runLoop fuel (initState module)

end VM

/-! ## Bytecode container (serializer.ts / deserializer.ts)

The byte-for-byte container is modelled at the granularity of the
writer/reader calls: each `writeByte`/`writeUInt16`/`writeUInt32`/
`writeDouble`/`writeString` call emits one `SItem`, and each `read*` call
consumes one, checking its kind.  (`writeString` fuses the `u32` byte
length and the UTF-8 payload it writes; `writeDoubleLE`/`readDoubleLE`
round-trip a JS number exactly, which the `f64` item models.)  A kind
mismatch — where the byte-level code would silently misread raw bytes —
is an error here; streams produced by the serializer never mismatch. -/

inductive SItem where
  | byte (n : Nat)
  | u16 (n : Nat)
  | u32 (n : Nat)
  | f64 (q : ℚ)
  | sbytes (s : String)
deriving DecidableEq, Repr

namespace Serializer

/-- `writeInstruction`: the opcode byte then the operand (`inst.arg ?? 0`). -/
def writeInstruction (inst : Instruction) : List SItem :=
  [.byte inst.op, .u32 (inst.arg.getD 0)]

/-- One upvalue descriptor: `u8 isLocal`, `u32 index`. -/
def writeUpvalue (up : Upvalue) : List SItem :=
  [.byte (if up.isLocal then 1 else 0), .u32 up.index]

/-- `writeFunction`: name, arity, localCount, then the descriptor array
prefixed by *its own length* (`fn.upvalues.length` — not the function's
`upvalueCount` field), then the code prefixed by its length. -/
def writeFunction (fn : CompiledFunction) : List SItem :=
  [.sbytes fn.name, .u32 fn.arity, .u32 fn.localCount, .u32 fn.upvalues.length]
    ++ fn.upvalues.flatMap writeUpvalue
    ++ [.u32 fn.code.length] ++ fn.code.flatMap writeInstruction

/-- `writeValue`: tag byte then payload; builtin functions and the
remaining runtime-only tags are serialization errors. -/
def writeValue : Value → Except String (List SItem)
  | .none => .ok [.byte 0]
  | .int v => .ok [.byte 1, .f64 v]
  | .float v => .ok [.byte 2, .f64 v]
  | .string s => .ok [.byte 3, .sbytes s]
  | .bool b => .ok [.byte 4, .byte (if b then 1 else 0)]
  | .function (.compiled fn) => .ok (.byte 5 :: writeFunction fn)
  | .function (.builtin _) => .error "Builtin functions cannot be serialized in constant pool"
  | .cls c => .ok ([.byte 6, .sbytes c.name, .u32 c.fields.length]
      ++ c.fields.map SItem.sbytes ++ [.u32 c.methods.length]
      ++ c.methods.flatMap (fun m => .sbytes m.1 :: writeFunction m.2))
  | _ => .error "Unsupported constant type"

/-- Serialize the constant pool in order. -/
def serializeValues : List Value → Except String (List SItem)
  | [] => .ok []
  | v :: vs => do
    let i ← writeValue v
    let r ← serializeValues vs
    .ok (i ++ r)

/-- `Serializer.serialize`: magic, version, then the four tables, each
length-prefixed. -/
def serialize (m : CompiledModule) : Except String (List SItem) := do
  let consts ← serializeValues m.constants
  .ok ([.sbytes "UABC", .u16 1, .u32 m.constants.length] ++ consts
    ++ [.u32 m.globals.length] ++ m.globals.map SItem.sbytes
    ++ [.u32 m.functions.length] ++ m.functions.flatMap writeFunction
    ++ [.u32 m.mainCode.length] ++ m.mainCode.flatMap writeInstruction)

end Serializer

namespace Deserializer

/-- A reader consumes a prefix of the item stream. -/
def Reader (α : Type) : Type := List SItem → Except String (α × List SItem)

instance : Monad Reader where
  pure a := fun l => .ok (a, l)
  bind x f := fun l =>
    match x l with
    | .error e => .error e
    | .ok (a, l') => f a l'

/-- Abort reading (a TS `throw`). -/
def rfail {α : Type} (e : String) : Reader α := fun _ => .error e

def readByte : Reader Nat := fun l =>
  match l with
  | .byte n :: r => .ok (n, r)
  | _ => .error "read mismatch: byte"

def readUInt16 : Reader Nat := fun l =>
  match l with
  | .u16 n :: r => .ok (n, r)
  | _ => .error "read mismatch: u16"

def readUInt32 : Reader Nat := fun l =>
  match l with
  | .u32 n :: r => .ok (n, r)
  | _ => .error "read mismatch: u32"

def readDouble : Reader ℚ := fun l =>
  match l with
  | .f64 q :: r => .ok (q, r)
  | _ => .error "read mismatch: f64"

def readString : Reader String := fun l =>
  match l with
  | .sbytes s :: r => .ok (s, r)
  | _ => .error "read mismatch: string"

/-- Read `n` items with the given reader (the TS `for` loops over a
length prefix). -/
def readN {α : Type} : Nat → Reader α → Reader (List α)
  | 0, _ => pure []
  | n + 1, r => do
    let a ← r
    let as ← readN n r
    pure (a :: as)

/-- `readInstruction`: always reads an operand, so the result's `arg` is
always present. -/
def readInstruction : Reader Instruction := do
  let op ← readByte
  let arg ← readUInt32
  pure ⟨op, some arg⟩

def readUpvalue : Reader Upvalue := do
  let isLocalByte ← readByte
  let index ← readUInt32
  pure ⟨isLocalByte != 0, index⟩

/-- `readFunction`: the `upvalueCount` field of the result is the count
read from the stream (which the serializer wrote as the descriptor-array
length). -/
def readFunction : Reader CompiledFunction := do
  let name ← readString
  let arity ← readUInt32
  let localCount ← readUInt32
  let upvalueCount ← readUInt32
  let upvalues ← readN upvalueCount readUpvalue
  let codeLen ← readUInt32
  let code ← readN codeLen readInstruction
  pure { name := name, arity := arity, localCount := localCount,
         upvalueCount := upvalueCount, upvalues := upvalues, code := code }

def readValue : Reader Value := do
  let tag ← readByte
  if tag = 0 then pure Value.none
  else if tag = 1 then do
    let v ← readDouble
    pure (Value.int v)
  else if tag = 2 then do
    let v ← readDouble
    pure (Value.float v)
  else if tag = 3 then do
    let s ← readString
    pure (Value.string s)
  else if tag = 4 then do
    let b ← readByte
    pure (Value.bool (b != 0))
  else if tag = 5 then do
    let fn ← readFunction
    pure (Value.function (.compiled fn))
  else if tag = 6 then do
    let name ← readString
    let fieldCount ← readUInt32
    let fields ← readN fieldCount readString
    let methodCount ← readUInt32
    let methods ← readN methodCount (do
      let mName ← readString
      let mFn ← readFunction
      pure (mName, mFn))
    pure (Value.cls { name := name, fields := fields, methods := methods })
  else rfail "Unknown value tag"

/-- `Deserializer.deserialize`: magic check, version (read and ignored),
then the four tables.  Trailing items are ignored, as in the source. -/
def deserialize : Reader CompiledModule := do
  let magic ← readString
  if magic ≠ "UABC" then rfail "Invalid bytecode file format"
  else do
    let _version ← readUInt16
    let constLen ← readUInt32
    let constants ← readN constLen readValue
    let globalLen ← readUInt32
    let globals ← readN globalLen readString
    let funcLen ← readUInt32
    let functions ← readN funcLen readFunction
    let mainLen ← readUInt32
    let mainCode ← readN mainLen readInstruction
    pure { constants := constants, globals := globals,
           functions := functions, mainCode := mainCode }

/-- Deserialize from the start of a stream, discarding the tail. -/
def deserializeModule (l : List SItem) : Except String CompiledModule :=
  match deserialize l with
  | .error e => .error e
  | .ok (m, _) => .ok m

end Deserializer

/-! ### Round-trip normalization

What one serialize/deserialize pass does to a module: a missing
instruction operand comes back as `0`, and a function's `upvalueCount`
field comes back as the length of its descriptor array.  On modules
satisfying the spec's invariants (operands present where needed is not
even required — only absent operands and mismatched `upvalueCount`
change) the pass is the identity. -/

/-- An instruction after one round trip: absent operand becomes `0`. -/
def normInstr (i : Instruction) : Instruction := ⟨i.op, some (i.arg.getD 0)⟩

/-- A function after one round trip. -/
def normFun (f : CompiledFunction) : CompiledFunction :=
  { f with upvalueCount := f.upvalues.length, code := f.code.map normInstr }

/-- A serializable constant after one round trip. -/
def normValue : Value → Value
  | .function (.compiled f) => .function (.compiled (normFun f))
  | .cls c => .cls { c with methods := c.methods.map (fun m => (m.1, normFun m.2)) }
  | v => v

/-- A module after one round trip. -/
def normModule (m : CompiledModule) : CompiledModule :=
  { constants := m.constants.map normValue, globals := m.globals,
    functions := m.functions.map normFun, mainCode := m.mainCode.map normInstr }

/-- The serializable constants: exactly the tags `writeValue` accepts
(`none`, int, float, string, bool, *compiled* function, class). -/
def serializableValue : Value → Bool
  | .none | .int _ | .float _ | .string _ | .bool _ => true
  | .function (.compiled _) => true
  | .cls _ => true
  | _ => false

/-- An instruction that carries an explicit operand. -/
def hasArg (i : Instruction) : Bool := i.arg.isSome

/-- A function whose `upvalueCount` matches its descriptor array (the
spec's §3 invariant) and whose instructions all carry operands. -/
def exactFun (f : CompiledFunction) : Bool :=
  f.upvalueCount == f.upvalues.length && f.code.all hasArg

/-- A constant on which one round trip is the identity. -/
def exactValue : Value → Bool
  | .function (.compiled f) => exactFun f
  | .cls c => c.methods.all (fun m => exactFun m.2)
  | _ => true

/-- A module on which one round trip is the identity: serializable
constants that are exact, exact functions, and fully-operanded main code. -/
def exactModule (m : CompiledModule) : Bool :=
  m.constants.all (fun v => serializableValue v && exactValue v)
    && m.functions.all exactFun && m.mainCode.all hasArg

/-! ## AST (ast.ts)

Modelled from the spec: the repository ships no `ast.ts` under `src/`
(only its users, `parser.ts` and `compiler.ts`, and the spec's §3 data
model).  The node shapes below are reconstructed from the constructor
sites in `parser.ts`, the consumer `switch`es in `compiler.ts`, and §3
("Statement variants … Expression variants … Pattern variants"). -/

/-- `Literal` nodes: the five `(value, type)` combinations the parser
produces (`integer`, `float`, `string`, `boolean`, `none`). -/
inductive Lit where
  | int (n : ℚ)
  | float (q : ℚ)
  | str (s : String)
  | bool (b : Bool)
  | noneL
deriving DecidableEq, Repr

/-- `TypeAnnotation` nodes (parsed and discarded by the compiler). -/
inductive TypeAnn where
  | mk (name : String) (generics : Option (List TypeAnn))

mutual

/-- Expression nodes. -/
inductive Expr where
  | lit (l : Lit)
  | ident (name : String)
  | binary (operator : String) (left right : Expr)
  | unary (operator : String) (operand : Expr)
  | call (callee : Expr) (args : List Expr)
  | member (object : Expr) (property : String)
  | indexE (object : Expr) (index : Expr)
  | listE (elements : List Expr)
  | lambda (params : List Param) (body : LambdaBody)
  | pipe (left right : Expr)
  | newE (className : String) (args : List Expr)
  | assign (target : Expr) (value : Expr)
  | awaitE (e : Expr)

/-- A lambda body: `(params) -> expr` or `(params) -> { block }`. -/
inductive LambdaBody where
  | block (statements : List Stmt)
  | expr (e : Expr)

/-- `Parameter` nodes (name, optional type, optional default). -/
inductive Param where
  | mk (name : String) (ty : Option TypeAnn) (defaultValue : Option Expr)

/-- Statement nodes. -/
inductive Stmt where
  | letS (name : String) (ty : Option TypeAnn) (value : Expr)
  | varS (name : String) (ty : Option TypeAnn) (value : Expr)
  | funDecl (f : FunDeclNode)
  | classDecl (name : String) (params : List Param) (traits : List String)
      (methods : List FunDeclNode) (fields : List FieldNode)
  | dataDecl (name : String) (fields : List Param)
  | traitDecl (name : String) (methods : List TraitSigNode)
  | ifS (condition : Expr) (thenBranch : List Stmt) (elseBranch : Option Stmt)
  | whileS (condition : Expr) (body : List Stmt)
  | forS (varName : String) (iterable : Expr) (body : List Stmt)
  | matchS (subject : Expr) (arms : List MatchArmNode)
  | returnS (value : Option Expr)
  | breakS
  | continueS
  | exprS (expression : Expr)
  | block (statements : List Stmt)

/-- `FunctionDecl` nodes (also used for class methods). -/
inductive FunDeclNode where
  | mk (name : String) (params : List Param) (returnType : Option TypeAnn)
      (body : List Stmt) (isAsync : Bool)

/-- Class-body field declarations (parsed; ignored by the compiler). -/
inductive FieldNode where
  | mk (name : String) (ty : Option TypeAnn) (value : Expr)

/-- Trait method signatures (parsed; the compiler has no trait case). -/
inductive TraitSigNode where
  | mk (name : String) (params : List Param) (returnType : Option TypeAnn)

/-- One `match` arm: pattern, optional guard, body expression. -/
inductive MatchArmNode where
  | mk (pattern : Pattern) (guard : Option Expr) (body : Expr)

/-- Pattern nodes. -/
inductive Pattern where
  | wildcard
  | litP (value : Lit)
  | identP (name : String)
  | rangeP (start : Expr) (stop : Expr)
  | ctorP (name : String) (args : List Pattern)

end

def FunDeclNode.name : FunDeclNode → String
  | .mk n _ _ _ _ => n

def FunDeclNode.params : FunDeclNode → List Param
  | .mk _ p _ _ _ => p

def FunDeclNode.body : FunDeclNode → List Stmt
  | .mk _ _ _ b _ => b

def Param.name : Param → String
  | .mk n _ _ => n

/-- The compiler's special-print test:
`expr.callee.kind === 'Identifier' && expr.callee.name === '__print__'`. -/
def isPrintIdent : Expr → Bool
  | .ident n => n == "__print__"
  | _ => false

/-! ## Compiler (compiler.ts)

The TS `Compiler` object's mutable fields become an explicit `CState`.
Scope objects form a parent chain; the chain is a list (innermost first).
All block scopes of one function share a single upvalue name-map object in
TS (`pushScope` passes `this.scope.upvalues` through); that live map is
the state field `scopeUpvals`.  Entering a nested function freezes the
current function's live map into its chain nodes (`upvals`), which is
sound because an enclosing function's map cannot change while a nested
function is being compiled; `captureUpvalue` reads those frozen maps.
`Local.isCaptured` is written but never read in the source, so it is
carried but never consulted. -/

/-- `interface Local` from compiler.ts. -/
structure LocalVar where
  index : Nat
  isCaptured : Bool

/-- `interface UpvalueInfo` from compiler.ts. -/
structure UpvalueInfo where
  index : Nat
  isLocal : Bool
  parentIndex : Nat

/-- One scope of the chain: its locals, its function's (frozen) upvalue
name-map, and its function-nesting depth. -/
structure ScopeNode where
  locals : List (String × LocalVar)
  upvals : List (String × UpvalueInfo)
  depth : Nat

/-- The compiler's mutable fields.  `globalSet` of the source mirrors
membership in `globals` and is represented by `globals` itself. -/
structure CState where
  constants : List Value
  globals : List String
  functions : List CompiledFunction
  currentCode : List Instruction
  chain : List ScopeNode
  scopeUpvals : List (String × UpvalueInfo)
  localCount : Nat
  upvalues : List UpvalueInfo
  functionDepth : Nat

/-- The initial compiler state: one root scope at depth 0. -/
def initCState : CState :=
  { constants := [], globals := [], functions := [], currentCode := [],
    chain := [⟨[], [], 0⟩], scopeUpvals := [], localCount := 0,
    upvalues := [], functionDepth := 0 }

/-- `List.indexOf` on strings (TS `Array.prototype.indexOf`, defined on
present elements; callers check membership first). -/
def listIndexOf (l : List String) (s : String) : Nat :=
  match l with
  | [] => 0
  | x :: xs => if x == s then 0 else listIndexOf xs s + 1

namespace Compiler

/-- `emit(op, arg?)`. -/
def emit (op : Nat) (arg : Option Nat) (st : CState) : CState :=
  { st with currentCode := st.currentCode ++ [⟨op, arg⟩] }

/-- `valuesEqual`: same tag, then `a.value === b.value`.  Primitive
payloads compare by value; every non-primitive payload handed to
`addConstant` is a freshly created object, so `===` on them is `false`. -/
def valuesEqual : Value → Value → Bool
  | .none, .none => true
  | .int a, .int b => a == b
  | .float a, .float b => a == b
  | .string a, .string b => a == b
  | .bool a, .bool b => a == b
  | _, _ => false

/-- `addConstant`: intern by `valuesEqual`, else append. -/
def addConstant (v : Value) (st : CState) : Nat × CState :=
  match st.constants.findIdx? (fun c => valuesEqual c v) with
  | some i => (i, st)
  | none => (st.constants.length, { st with constants := st.constants ++ [v] })

/-- `emitConstant`. -/
def emitConstant (v : Value) (st : CState) : CState :=
  let (idx, st') := addConstant v st
  emit OpCode.LOAD_CONST (some idx) st'

/-- `addGlobal`: reuse the slot of a known name, else append. -/
def addGlobal (name : String) (st : CState) : Nat × CState :=
  if st.globals.contains name then (listIndexOf st.globals name, st)
  else (st.globals.length, { st with globals := st.globals ++ [name] })

/-- `addLocal`: allocate the next local slot and bind the name in the
innermost scope. -/
def addLocal (name : String) (st : CState) : Nat × CState :=
  let idx := st.localCount
  match st.chain with
  | [] => (idx, { st with localCount := idx + 1 })
  | node :: rest =>
    (idx, { st with
      localCount := idx + 1,
      chain := { node with locals := smapSet node.locals name ⟨idx, false⟩ } :: rest })

/-- `pushScope`: new block scope, same depth, shared upvalue map. -/
def pushScope (st : CState) : CState :=
  match st.chain with
  | [] => { st with chain := [⟨[], [], 0⟩] }
  | node :: _ => { st with chain := ⟨[], [], node.depth⟩ :: st.chain }

/-- `popScope`: drop the innermost scope if it has a parent. -/
def popScope (st : CState) : CState :=
  match st.chain with
  | _ :: rest@(_ :: _) => { st with chain := rest }
  | _ => st

/-- `emitJump`: emit with placeholder `0`, return the instruction index. -/
def emitJump (op : Nat) (st : CState) : Nat × CState :=
  let st' := emit op (some 0) st
  (st'.currentCode.length - 1, st')

/-- `patchJump`: point the instruction's operand at the current end of
code. -/
def patchJump (idx : Nat) (st : CState) : CState :=
  match st.currentCode.get? idx with
  | some i => { st with currentCode := st.currentCode.set idx ⟨i.op, some st.currentCode.length⟩ }
  | none => st

/-- `emitLoop`. -/
def emitLoop (loopStart : Nat) (st : CState) : CState :=
  emit OpCode.JUMP (some loopStart) st

/-- How `resolveVariable` reports an access path. -/
inductive Resolved where
  | local (index : Nat)
  | upvalue (index : Nat)
  | global (index : Nat)

/-- The `while (scope && scope.depth === functionDepth)` walk: find the
name among the current function's scopes; also return the rest of the
chain (the first enclosing-function scope onward). -/
def findLocal (name : String) (fd : Nat) : List ScopeNode → Option LocalVar × List ScopeNode
  | [] => (Option.none, [])
  | node :: rest =>
    if node.depth = fd then
      match smapGet node.locals name with
      | some l => (some l, node :: rest)
      | none => findLocal name fd rest
    else (Option.none, node :: rest)

/-- `captureUpvalue`: walk the enclosing scopes; a matching local yields a
fresh `(isLocal := true, parentIndex := localSlot)` descriptor, a matching
outer upvalue yields `(isLocal := false, parentIndex := outerSlot)`; the
new descriptor is appended and recorded in the live name-map.  (The
source also flags the outer local `isCaptured`, which nothing reads.) -/
def captureUpvalue (name : String) (outer : List ScopeNode) (st : CState) :
    Option (Nat × CState) :=
  match outer with
  | [] => Option.none
  | node :: rest =>
    match smapGet node.locals name with
    | some l =>
      let upvalueIdx := st.upvalues.length
      let info : UpvalueInfo := ⟨upvalueIdx, true, l.index⟩
      some (upvalueIdx, { st with
        upvalues := st.upvalues ++ [info],
        scopeUpvals := smapSet st.scopeUpvals name info })
    | none =>
      match smapGet node.upvals name with
      | some outerUp =>
        let upvalueIdx := st.upvalues.length
        let info : UpvalueInfo := ⟨upvalueIdx, false, outerUp.index⟩
        some (upvalueIdx, { st with
          upvalues := st.upvalues ++ [info],
          scopeUpvals := smapSet st.scopeUpvals name info })
      | none => captureUpvalue name rest st

/-- `resolveVariable`: local of the current function, else an already
captured upvalue, else capture from an enclosing function, else global
(created on first sight). -/
def resolveVariable (name : String) (st : CState) : Resolved × CState :=
  let (localHit, remaining) := findLocal name st.functionDepth st.chain
  match localHit with
  | some l => (.local l.index, st)
  | none =>
    match smapGet st.scopeUpvals name with
    | some up => (.upvalue up.index, st)
    | none =>
      let captured :=
        if remaining.length ≠ 0 ∧ st.functionDepth > 0 then
          captureUpvalue name remaining st
        else Option.none
      match captured with
      | some (idx, st') => (.upvalue idx, st')
      | none =>
        if st.globals.contains name then (.global (listIndexOf st.globals name), st)
        else
          let (gIdx, st') := addGlobal name st
          (.global gIdx, st')

/-- The context saved around a nested function compilation. -/
structure SavedCtx where
  currentCode : List Instruction
  chain : List ScopeNode
  scopeUpvals : List (String × UpvalueInfo)
  localCount : Nat
  upvalues : List UpvalueInfo
  functionDepth : Nat

/-- Save the per-function fields and open a fresh function context whose
scope chain extends the (frozen) current chain. -/
def enterFunction (st : CState) : SavedCtx × CState :=
  let saved : SavedCtx := ⟨st.currentCode, st.chain, st.scopeUpvals,
    st.localCount, st.upvalues, st.functionDepth⟩
  let frozen := st.chain.map (fun n =>
    if n.depth = st.functionDepth then { n with upvals := st.scopeUpvals } else n)
  let newDepth := st.functionDepth + 1
  (saved, { st with
    currentCode := [], localCount := 0, upvalues := [],
    functionDepth := newDepth, chain := ⟨[], [], newDepth⟩ :: frozen,
    scopeUpvals := [] })

/-- Restore the per-function fields (the shared tables `constants`,
`globals`, `functions` persist). -/
def exitFunction (saved : SavedCtx) (st : CState) : CState :=
  { st with
    currentCode := saved.currentCode, chain := saved.chain,
    scopeUpvals := saved.scopeUpvals, localCount := saved.localCount,
    upvalues := saved.upvalues, functionDepth := saved.functionDepth }

/-- `compileLiteral`. -/
def compileLiteral (l : Lit) (st : CState) : CState :=
  match l with
  | .int n => emitConstant (.int n) st
  | .float q => emitConstant (.float q) st
  | .str s => emitConstant (.string s) st
  | .bool b => emitConstant (.bool b) st
  | .noneL => emitConstant .none st

/-- `compileIdentifier`. -/
def compileIdentifier (name : String) (st : CState) : CState :=
  let (resolved, st') := resolveVariable name st
  match resolved with
  | .local i => emit OpCode.LOAD_VAR (some i) st'
  | .upvalue i => emit OpCode.LOAD_UPVALUE (some i) st'
  | .global i => emit OpCode.LOAD_GLOBAL (some i) st'

/-- The opcode for a binary operator lexeme (the `switch` of
`compileBinaryExpr`); unknown operators throw. -/
def binaryOpcode (operator : String) : Except String Nat :=
  if operator = "+" then .ok OpCode.ADD
  else if operator = "-" then .ok OpCode.SUB
  else if operator = "*" then .ok OpCode.MUL
  else if operator = "/" then .ok OpCode.DIV
  else if operator = "%" then .ok OpCode.MOD
  else if operator = "**" then .ok OpCode.POW
  else if operator = "==" then .ok OpCode.EQ
  else if operator = "!=" then .ok OpCode.NE
  else if operator = "<" then .ok OpCode.LT
  else if operator = ">" then .ok OpCode.GT
  else if operator = "<=" then .ok OpCode.LE
  else if operator = ">=" then .ok OpCode.GE
  else if operator = "&&" then .ok OpCode.AND
  else if operator = "||" then .ok OpCode.OR
  else .error ("Unknown operator: " ++ operator)

/-- Any list node has positive size (termination bookkeeping). -/
def sizePosList {α : Type} [SizeOf α] (l : List α) : 0 < sizeOf l := by
  cases l <;> simp_arith

/-- Any option node has positive size (termination bookkeeping). -/
def sizePosOption {α : Type} [SizeOf α] (o : Option α) : 0 < sizeOf o := by
  cases o <;> simp_arith

mutual

/-- `compileExpression`: dispatch on the node kind.  `AwaitExpr` (and any
other kind without a case) hits the `default: throw` of the source. -/
def compileExpression : Expr → CState → Except String CState
  | .lit l, st => .ok (compileLiteral l st)
  | .ident name, st => .ok (compileIdentifier name st)
  | .binary operator left right, st => do
    let st1 ← compileExpression left st
    let st2 ← compileExpression right st1
    let op ← binaryOpcode operator
    .ok (emit op Option.none st2)
  | .unary operator operand, st => do
    let st1 ← compileExpression operand st
    if operator = "-" then .ok (emit OpCode.NEG Option.none st1)
    else if operator = "!" ∨ operator = "не" ∨ operator = "not" then
      .ok (emit OpCode.NOT Option.none st1)
    else .error ("Unknown unary operator: " ++ operator)
  | .call callee args, st =>
    if isPrintIdent callee then do
      let st1 ← compileExprList args st
      let st2 := emit OpCode.PRINT (some args.length) st1
      .ok (emitConstant .none st2)
    else do
      let st1 ← compileExprList args st
      let st2 ← compileExpression callee st1
      .ok (emit OpCode.CALL (some args.length) st2)
  | .member object property, st => do
    let st1 ← compileExpression object st
    let (nameIdx, st2) := addConstant (.string property) st1
    .ok (emit OpCode.GET_ATTR (some nameIdx) st2)
  | .indexE object index, st => do
    let st1 ← compileExpression object st
    let st2 ← compileExpression index st1
    .ok (emit OpCode.GET_INDEX Option.none st2)
  | .listE elements, st => do
    let st1 ← compileExprList elements st
    .ok (emit OpCode.MAKE_LIST (some elements.length) st1)
  | .lambda params body, st => do
    let (saved, st0) := enterFunction st
    let st1 := params.foldl (fun s p => (addLocal p.name s).2) st0
    let st2 ←
      match body with
      | .block statements => do
        let s ← compileStmtList statements st1
        .ok (emitConstant .none s)
      | .expr e => compileExpression e st1
    let st3 := emit OpCode.RETURN Option.none st2
    let descriptors := st3.upvalues.map (fun uv => Upvalue.mk uv.isLocal uv.parentIndex)
    let fn : CompiledFunction :=
      { name := "<lambda>", arity := params.length, localCount := st3.localCount,
        upvalueCount := st3.upvalues.length, upvalues := descriptors,
        code := st3.currentCode }
    let st4 := exitFunction saved st3
    let st5 := { st4 with functions := st4.functions ++ [fn] }
    if fn.upvalueCount > 0 then
      .ok (emit OpCode.MAKE_CLOSURE (some fn.upvalueCount)
        (emitConstant (.function (.compiled fn)) st5))
    else
      .ok (emitConstant (.function (.compiled fn)) st5)
  | .pipe left right, st => do
    let st1 ← compileExpression left st
    let st2 ← compileExpression right st1
    .ok (emit OpCode.CALL (some 1) st2)
  | .newE className args, st => do
    let st1 ← compileExprList args st
    if st1.globals.contains className then
      let classIdx := listIndexOf st1.globals className
      .ok (emit OpCode.NEW_INSTANCE (some args.length)
        (emit OpCode.LOAD_GLOBAL (some classIdx) st1))
    else
      let (newIdx, st2) := addGlobal className st1
      .ok (emit OpCode.NEW_INSTANCE (some args.length)
        (emit OpCode.LOAD_GLOBAL (some newIdx) st2))
  | .assign target value, st => do
    let st1 ← compileExpression value st
    let st2 := emit OpCode.DUP Option.none st1
    match target with
    | .ident name =>
      let (resolved, st3) := resolveVariable name st2
      match resolved with
      | .local i => .ok (emit OpCode.STORE_VAR (some i) st3)
      | .upvalue i => .ok (emit OpCode.STORE_UPVALUE (some i) st3)
      | .global i => .ok (emit OpCode.STORE_GLOBAL (some i) st3)
    | .member object property => do
      let st3 ← compileExpression object st2
      let (nameIdx, st4) := addConstant (.string property) st3
      .ok (emit OpCode.SET_ATTR (some nameIdx) st4)
    | .indexE object index => do
      let st3 ← compileExpression object st2
      let st4 ← compileExpression index st3
      .ok (emit OpCode.SET_INDEX Option.none st4)
    | _ => .ok st2
  | .awaitE _, st =>
    let _ := st
    .error "Unknown expression kind: AwaitExpr"
termination_by e st => sizeOf e

/-- The argument/element loops (`for (const arg of args) compileExpression(arg)`). -/
def compileExprList : List Expr → CState → Except String CState
  | [], st => .ok st
  | e :: rest, st => do
    let st' ← compileExpression e st
    compileExprList rest st'
termination_by es st => sizeOf es

/-- `compileStatement`.  `TraitDecl` has no case in the source `switch`
(and no `default`), so it compiles to nothing; likewise `break` and
`continue` are explicit no-ops. -/
def compileStatement : Stmt → CState → Except String CState
  | .letS name _ value, st => do
    let st1 ← compileExpression value st
    if st1.chain.length ≥ 2 then
      let (idx, st2) := addLocal name st1
      .ok (emit OpCode.STORE_VAR (some idx) st2)
    else
      let (idx, st2) := addGlobal name st1
      .ok (emit OpCode.STORE_GLOBAL (some idx) st2)
  | .varS name _ value, st => do
    let st1 ← compileExpression value st
    if st1.chain.length ≥ 2 then
      let (idx, st2) := addLocal name st1
      .ok (emit OpCode.STORE_VAR (some idx) st2)
    else
      let (idx, st2) := addGlobal name st1
      .ok (emit OpCode.STORE_GLOBAL (some idx) st2)
  | .funDecl (.mk fname fparams _ fbody _), st => do
    let (saved, st0) := enterFunction st
    let st1 := fparams.foldl (fun s p => (addLocal p.name s).2) st0
    let st2 ← compileStmtList fbody st1
    let st3 := emit OpCode.RETURN Option.none (emitConstant .none st2)
    let descriptors := st3.upvalues.map (fun uv => Upvalue.mk uv.isLocal uv.parentIndex)
    let fn : CompiledFunction :=
      { name := fname, arity := fparams.length, localCount := st3.localCount,
        upvalueCount := st3.upvalues.length, upvalues := descriptors,
        code := st3.currentCode }
    let st4 := { st3 with functions := st3.functions ++ [fn] }
    let st5 := exitFunction saved st4
    let (globalIdx, st6) := addGlobal fname st5
    let st7 :=
      if fn.upvalueCount > 0 then
        emit OpCode.MAKE_CLOSURE (some fn.upvalueCount)
          (emitConstant (.function (.compiled fn)) st6)
      else emitConstant (.function (.compiled fn)) st6
    .ok (emit OpCode.STORE_GLOBAL (some globalIdx) st7)
  | .classDecl name params _ methods _, st => do
    let (methodTable, st1) ← compileMethods methods [] st
    let classDef : ClassDef := { name := name, fields := params.map Param.name, methods := methodTable }
    let (globalIdx, st2) := addGlobal name st1
    .ok (emit OpCode.STORE_GLOBAL (some globalIdx) (emitConstant (.cls classDef) st2))
  | .dataDecl name fields, st =>
    let classDef : ClassDef := { name := name, fields := fields.map Param.name, methods := [] }
    let (globalIdx, st2) := addGlobal name st
    .ok (emit OpCode.STORE_GLOBAL (some globalIdx) (emitConstant (.cls classDef) st2))
  | .ifS condition thenBranch elseBranch, st =>
    compileIf condition thenBranch elseBranch st
  | .whileS condition body, st => do
    let loopStart := st.currentCode.length
    let st1 ← compileExpression condition st
    let (exitJump, st2) := emitJump OpCode.JUMP_IF_FALSE st1
    let st3 ← compileStmtList body (pushScope st2)
    let st4 := popScope st3
    .ok (patchJump exitJump (emitLoop loopStart st4))
  | .forS varName iterable body, st => do
    let st1 ← compileExpression iterable st
    let (iterIdx, st2) := addLocal "__iter__" st1
    let st3 := emit OpCode.STORE_VAR (some iterIdx) (emitConstant (.int 0) st2)
    let loopStart := st3.currentCode.length
    let (exitJump, st4) := emitJump OpCode.JUMP_IF_FALSE st3
    let st5 := (addLocal varName (pushScope st4)).2
    let st6 ← compileStmtList body st5
    let st7 := popScope st6
    let _ := loopStart
    .ok (patchJump exitJump (emitLoop loopStart st7))
  | .matchS subject arms, st => do
    let st1 ← compileExpression subject st
    let (endJumps, st2) ← compileArms arms [] st1
    let st3 := emitConstant .none st2
    let st4 := endJumps.foldl (fun s j => patchJump j s) st3
    .ok (emit OpCode.POP Option.none st4)
  | .returnS value, st => do
    let st1 ←
      match value with
      | some v => compileExpression v st
      | none => .ok (emitConstant .none st)
    .ok (emit OpCode.RETURN Option.none st1)
  | .breakS, st => .ok st
  | .continueS, st => .ok st
  | .exprS expression, st => do
    let st1 ← compileExpression expression st
    .ok (emit OpCode.POP Option.none st1)
  | .block statements, st => do
    let st1 ← compileStmtList statements (pushScope st)
    .ok (popScope st1)
  | .traitDecl _ _, st => .ok st
termination_by s st => sizeOf s

/-- `compileIfStatement` (including the `else-if` recursion).  An
`elseBranch` that is neither a block nor an `if` cannot be produced by
the parser; the TS code would crash iterating its `statements`. -/
def compileIf (condition : Expr) (thenBranch : List Stmt) (elseBranch : Option Stmt)
    (st : CState) : Except String CState := do
  let st1 ← compileExpression condition st
  let (jumpToElse, st2) := emitJump OpCode.JUMP_IF_FALSE st1
  let st3 ← compileStmtList thenBranch (pushScope st2)
  let st4 := popScope st3
  match elseBranch with
  | some els => do
    let (jumpOverElse, st5) := emitJump OpCode.JUMP st4
    let st6 := patchJump jumpToElse st5
    let st7 ←
      match els with
      | .ifS c t e => compileIf c t e st6
      | .block statements => do
        let s ← compileStmtList statements (pushScope st6)
        .ok (popScope s)
      | _ => .error "malformed else branch"
    .ok (patchJump jumpOverElse st7)
  | none => .ok (patchJump jumpToElse st4)
termination_by sizeOf condition + sizeOf thenBranch + sizeOf elseBranch
decreasing_by
all_goals simp_wf
all_goals try omega
all_goals (have hT := sizePosList thenBranch; have hE := sizePosOption elseBranch; omega)

/-- Statement sequences (function bodies, blocks, branches). -/
def compileStmtList : List Stmt → CState → Except String CState
  | [], st => .ok st
  | s :: rest, st => do
    let st' ← compileStatement s st
    compileStmtList rest st'
termination_by ss st => sizeOf ss

/-- The arm loop of `compileMatchStatement`: duplicate the subject, test
the pattern, `JUMP_IF_FALSE` past the arm, optionally guard, compile the
body, jump to the shared end; collect the end-jump indices. -/
def compileArms : List MatchArmNode → List Nat → CState → Except String (List Nat × CState)
  | [], acc, st => .ok (acc, st)
  | .mk pattern guard body :: rest, acc, st => do
    let st1 := emit OpCode.DUP Option.none st
    let st2 ← compilePattern pattern st1
    let (skipArm, st3) := emitJump OpCode.JUMP_IF_FALSE st2
    let (acc', st7) ←
      match guard with
      | some g => do
        let st4 ← compileExpression g st3
        let (skipGuard, st5) := emitJump OpCode.JUMP_IF_FALSE st4
        let st6 ← compileExpression body st5
        let (endJump, st6') := emitJump OpCode.JUMP st6
        .ok (acc ++ [endJump], patchJump skipGuard st6')
      | none => do
        let st4 ← compileExpression body st3
        let (endJump, st5) := emitJump OpCode.JUMP st4
        .ok (acc ++ [endJump], st5)
    let st8 := patchJump skipArm st7
    compileArms rest acc' st8
termination_by arms acc st => sizeOf arms

/-- `compilePattern`.  The range pattern emits only the lower-bound test
(the upper bound is left unimplemented in the source); the constructor
pattern always matches. -/
def compilePattern : Pattern → CState → Except String CState
  | .wildcard, st => .ok (emitConstant (.bool true) st)
  | .litP value, st => .ok (emit OpCode.EQ Option.none (compileLiteral value st))
  | .identP name, st =>
    let (idx, st1) := addLocal name st
    let st2 := emit OpCode.STORE_VAR (some idx) (emit OpCode.DUP Option.none st1)
    .ok (emitConstant (.bool true) st2)
  | .rangeP start _, st => do
    let st1 := emit OpCode.DUP Option.none st
    let st2 ← compileExpression start st1
    .ok (emit OpCode.GE Option.none st2)
  | .ctorP _ _, st => .ok (emitConstant (.bool true) st)
termination_by p st => sizeOf p

/-- The method loop of `compileClassDecl`: each method compiles in a fresh
function context whose local 0 is the receiver, bound under both
`self` and `себе`; the produced function's arity counts the receiver and
its upvalue fields are hard-coded empty.  Methods are recorded in the
class's method map, not in the module function table. -/
def compileMethods : List FunDeclNode → List (String × CompiledFunction) → CState →
    Except String (List (String × CompiledFunction) × CState)
  | [], acc, st => .ok (acc, st)
  | .mk mname mparams _ mbody _ :: rest, acc, st => do
    let (saved, st0) := enterFunction st
    let (selfIdx, stA) := addLocal "self" st0
    let stB :=
      match stA.chain with
      | [] => stA
      | node :: tail =>
        { stA with chain :=
          { node with locals := smapSet node.locals "себе" ⟨selfIdx, false⟩ } :: tail }
    let st1 := mparams.foldl (fun s p => (addLocal p.name s).2) stB
    let st2 ← compileStmtList mbody st1
    let st3 := emit OpCode.RETURN Option.none (emitConstant .none st2)
    let fn : CompiledFunction :=
      { name := mname, arity := mparams.length + 1, localCount := st3.localCount,
        upvalueCount := 0, upvalues := [], code := st3.currentCode }
    let st4 := exitFunction saved st3
    compileMethods rest (smapSet acc mname fn) st4
termination_by ms acc st => sizeOf ms

end

/-- `Compiler.compile`: compile the top-level statements, append `HALT`,
and package the four tables. -/
def compile (program : List Stmt) (st : CState := initCState) :
    Except String CompiledModule := do
  let st1 ← compileStmtList program st
  let st2 := emit OpCode.HALT Option.none st1
  .ok { constants := st2.constants, globals := st2.globals,
        functions := st2.functions, mainCode := st2.currentCode }

end Compiler

/-! ## Tokens (tokens.ts) -/

/-- The closed token-kind set of `enum TokenType`. -/
inductive TokType where
  | INTEGER | FLOAT | STRING | BOOLEAN
  | IDENTIFIER
  | LET | VAR | CONST
  | FUN | RETURN
  | IF | ELSE | MATCH | WHILE | FOR | IN | BREAK | CONTINUE
  | CLASS | TRAIT | DATA | IMPL | SELF | NEW
  | TYPE_INT | TYPE_FLOAT | TYPE_STRING | TYPE_BOOL
  | TYPE_LIST | TYPE_MAP | TYPE_OPTION | TYPE_RESULT
  | ASYNC | AWAIT | SPAWN
  | TRUE | FALSE | NONE | SOME | PRINT
  | PLUS | MINUS | STAR | SLASH | PERCENT | POWER
  | EQ | NE | LT | GT | LE | GE
  | AND | OR | NOT
  | ASSIGN | PLUS_ASSIGN | MINUS_ASSIGN
  | ARROW | FAT_ARROW | PIPE | RANGE | DOUBLE_COLON
  | LPAREN | RPAREN | LBRACE | RBRACE | LBRACKET | RBRACKET
  | COMMA | DOT | COLON | SEMICOLON | UNDERSCORE
  | NEWLINE | EOF | INVALID
deriving DecidableEq, Repr, BEq

/-- `interface Token`. -/
structure Token where
  type : TokType
  value : String
  line : Nat
  column : Nat
deriving DecidableEq, Repr

/-! ## Parser (parser.ts)

Recursive descent over the token vector; `pos` is the cursor.  Every
recursive parse function takes fuel (the TS recursion is unbounded); all
uses below supply ample fuel, and no theorem concerns fuel exhaustion. -/

/-- The parser's mutable state. -/
structure PState where
  tokens : List Token
  pos : Nat

namespace Parser

/-- `peek()`.  The lexer terminates every stream with `EOF`, so a cursor
past the end (where TS would crash dereferencing `undefined`) is an
internal error. -/
def peekTok (st : PState) : Except String Token :=
  match st.tokens.get? st.pos with
  | some t => .ok t
  | none => .error "internal: cursor past end of token stream"

/-- `isAtEnd()`: the current token is `EOF`. -/
def isAtEnd (st : PState) : Bool :=
  match st.tokens.get? st.pos with
  | some t => t.type == TokType.EOF
  | none => true

/-- `check(type)`: false at end of stream (so `check EOF` is never
true), else compare the current token's kind. -/
def check (tt : TokType) (st : PState) : Bool :=
  match st.tokens.get? st.pos with
  | some t => t.type != TokType.EOF && t.type == tt
  | none => false

/-- `checkNext(type)`. -/
def checkNext (tt : TokType) (st : PState) : Bool :=
  match st.tokens.get? (st.pos + 1) with
  | some t => t.type == tt
  | none => false

/-- `advance()`: step the cursor unless at end; return the token before
the (new) cursor. -/
def advanceTok (st : PState) : Except String (Token × PState) :=
  let st' := if isAtEnd st then st else { st with pos := st.pos + 1 }
  match st'.tokens.get? (st'.pos - 1) with
  | some t => .ok (t, st')
  | none => .error "internal: no previous token"

/-- `match(type)`: conditionally advance. -/
def matchTok (tt : TokType) (st : PState) : Bool × PState :=
  if check tt st then (true, { st with pos := st.pos + 1 }) else (false, st)

/-- `previous()`. -/
def previousTok (st : PState) : Except String Token :=
  match st.tokens.get? (st.pos - 1) with
  | some t => .ok t
  | none => .error "internal: no previous token"

/-- `error(token, message)`: the `[line:column] Error at 'value'` format. -/
def errAt (t : Token) (message : String) : String :=
  "[" ++ toString t.line ++ ":" ++ toString t.column ++ "] Error at '"
    ++ t.value ++ "': " ++ message

/-- `consume(type, message)`. -/
def consumeTok (tt : TokType) (message : String) (st : PState) :
    Except String (Token × PState) := do
  if check tt st then advanceTok st
  else do
    let t ← peekTok st
    .error (errAt t message)

/-- `parseInt` on an integer lexeme (digits only, by the lexer). -/
def parseIntQ (s : String) : ℚ :=
  match s.toNat? with
  | some n => (n : ℚ)
  | none => 0

/-- `parseFloat` on a float lexeme `digits.digits`. -/
def parseFloatQ (s : String) : ℚ :=
  match s.splitOn "." with
  | [a] => parseIntQ a
  | [a, b] => parseIntQ a + parseIntQ b / ((10 : ℚ) ^ b.length)
  | _ => 0

/-- `parseLiteral()`: switch on the advanced token's kind. -/
def parseLiteral (st : PState) : Except String (Lit × PState) := do
  let (token, st') ← advanceTok st
  match token.type with
  | .INTEGER => .ok (.int (parseIntQ token.value), st')
  | .FLOAT => .ok (.float (parseFloatQ token.value), st')
  | .STRING => .ok (.str token.value, st')
  | .TRUE => .ok (.bool true, st')
  | .FALSE => .ok (.bool false, st')
  | .NONE => .ok (.noneL, st')
  | _ => .error (errAt token "Expected literal")

mutual

/-- `parse()`: statements until end of stream. -/
def parseProgram : Nat → PState → Except String (List Stmt × PState)
  | 0, _ => .error "parser out of fuel"
  | n + 1, st =>
    if isAtEnd st then .ok ([], st)
    else do
      let (s, st1) ← parseStatement n st
      let (rest, st2) ← parseProgram n st1
      .ok (s :: rest, st2)

/-- `parseStatement()`: dispatch on the current token kind. -/
def parseStatement : Nat → PState → Except String (Stmt × PState)
  | 0, _ => .error "parser out of fuel"
  | n + 1, st =>
    if check .LET st ∨ check .CONST st then parseLetStatement n st
    else if check .VAR st then parseVarStatement n st
    else if check .FUN st ∨ (check .ASYNC st ∧ checkNext .FUN st) then do
      let (f, st') ← parseFunctionDecl n st
      .ok (.funDecl f, st')
    else if check .CLASS st then parseClassDecl n st
    else if check .DATA st then parseDataDecl n st
    else if check .TRAIT st then parseTraitDecl n st
    else if check .IF st then parseIfStatement n st
    else if check .WHILE st then parseWhileStatement n st
    else if check .FOR st then parseForStatement n st
    else if check .MATCH st then parseMatchStatement n st
    else if check .RETURN st then parseReturnStatement n st
    else if check .BREAK st then do
      let (_, st') ← advanceTok st
      .ok (.breakS, st')
    else if check .CONTINUE st then do
      let (_, st') ← advanceTok st
      .ok (.continueS, st')
    else if check .LBRACE st then do
      let (ss, st') ← parseBlock n st
      .ok (.block ss, st')
    else do
      let (e, st') ← parseExpression n st
      .ok (.exprS e, st')

/-- `parseLetStatement()` (also used for `const`). -/
def parseLetStatement : Nat → PState → Except String (Stmt × PState)
  | 0, _ => .error "parser out of fuel"
  | n + 1, st => do
    let (_, st1) ← advanceTok st
    let (nameTok, st2) ← consumeTok .IDENTIFIER "Expected variable name" st1
    let (hasColon, st3) := matchTok .COLON st2
    let (ty, st4) ←
      if hasColon then do
        let (t, s) ← parseTypeAnn n st3
        .ok (some t, s)
      else .ok (Option.none, st3)
    let (_, st5) ← consumeTok .ASSIGN "Expected \"=\" in variable declaration" st4
    let (value, st6) ← parseExpression n st5
    .ok (.letS nameTok.value ty value, st6)

/-- `parseVarStatement()`. -/
def parseVarStatement : Nat → PState → Except String (Stmt × PState)
  | 0, _ => .error "parser out of fuel"
  | n + 1, st => do
    let (_, st1) ← advanceTok st
    let (nameTok, st2) ← consumeTok .IDENTIFIER "Expected variable name" st1
    let (hasColon, st3) := matchTok .COLON st2
    let (ty, st4) ←
      if hasColon then do
        let (t, s) ← parseTypeAnn n st3
        .ok (some t, s)
      else .ok (Option.none, st3)
    let (_, st5) ← consumeTok .ASSIGN "Expected \"=\" in variable declaration" st4
    let (value, st6) ← parseExpression n st5
    .ok (.varS nameTok.value ty value, st6)

/-- `parseFunctionDecl()`. -/
def parseFunctionDecl : Nat → PState → Except String (FunDeclNode × PState)
  | 0, _ => .error "parser out of fuel"
  | n + 1, st => do
    let (isAsync, st1) := matchTok .ASYNC st
    let (_, st2) ← consumeTok .FUN "Expected \"fun\" or \"функція\"" st1
    let (nameTok, st3) ← consumeTok .IDENTIFIER "Expected function name" st2
    let (_, st4) ← consumeTok .LPAREN "Expected \"(\" after function name" st3
    let (params, st5) ← parseParameters n st4
    let (_, st6) ← consumeTok .RPAREN "Expected \")\" after parameters" st5
    let (hasArrow, st7) := matchTok .ARROW st6
    let (returnType, st8) ←
      if hasArrow then do
        let (t, s) ← parseTypeAnn n st7
        .ok (some t, s)
      else .ok (Option.none, st7)
    let (body, st9) ← parseBlock n st8
    .ok (.mk nameTok.value params returnType body isAsync, st9)

/-- `parseParameters()`: empty unless a parameter starts, then a
comma-separated do/while loop. -/
def parseParameters : Nat → PState → Except String (List Param × PState)
  | 0, _ => .error "parser out of fuel"
  | n + 1, st =>
    if check .RPAREN st then .ok ([], st)
    else parseParametersLoop n st

/-- The body of the parameters do/while loop. -/
def parseParametersLoop : Nat → PState → Except String (List Param × PState)
  | 0, _ => .error "parser out of fuel"
  | n + 1, st => do
    let (nameTok, st1) ← consumeTok .IDENTIFIER "Expected parameter name" st
    let (hasColon, st2) := matchTok .COLON st1
    let (ty, st3) ←
      if hasColon then do
        let (t, s) ← parseTypeAnn n st2
        .ok (some t, s)
      else .ok (Option.none, st2)
    let (hasDefault, st4) := matchTok .ASSIGN st3
    let (dflt, st5) ←
      if hasDefault then do
        let (e, s) ← parseExpression n st4
        .ok (some e, s)
      else .ok (Option.none, st4)
    let p : Param := .mk nameTok.value ty dflt
    let (hasComma, st6) := matchTok .COMMA st5
    if hasComma then do
      let (rest, st7) ← parseParametersLoop n st6
      .ok (p :: rest, st7)
    else .ok ([p], st6)

/-- `parseClassDecl()`. -/
def parseClassDecl : Nat → PState → Except String (Stmt × PState)
  | 0, _ => .error "parser out of fuel"
  | n + 1, st => do
    let (_, st1) ← advanceTok st
    let (nameTok, st2) ← consumeTok .IDENTIFIER "Expected class name" st1
    let (hasParen, st3) := matchTok .LPAREN st2
    let (params, st5) ←
      if hasParen then do
        let (ps, s) ← parseParameters n st3
        let (_, s') ← consumeTok .RPAREN "Expected \")\" after class parameters" s
        .ok (ps, s')
      else .ok ([], st3)
    let (_, st6) ← consumeTok .LBRACE "Expected \"\x7b\" before class body" st5
    let (methods, fields, st7) ← parseClassBody n st6
    let (_, st8) ← consumeTok .RBRACE "Expected \"\x7d\" after class body" st7
    .ok (.classDecl nameTok.value params [] methods fields, st8)

/-- The class-body loop: methods (`fun`/`async`) and fields
(`let`/`const`); anything else is an error. -/
def parseClassBody : Nat → PState →
    Except String (List FunDeclNode × List FieldNode × PState)
  | 0, _ => .error "parser out of fuel"
  | n + 1, st =>
    if !check .RBRACE st ∧ !(isAtEnd st) then
      if check .FUN st ∨ check .ASYNC st then do
        let (m, st1) ← parseFunctionDecl n st
        let (ms, fs, st2) ← parseClassBody n st1
        .ok (m :: ms, fs, st2)
      else if check .LET st ∨ check .CONST st then do
        let (s, st1) ← parseLetStatement n st
        match s with
        | .letS fname fty fvalue => do
          let (ms, fs, st2) ← parseClassBody n st1
          .ok (ms, .mk fname fty fvalue :: fs, st2)
        | _ => .error "internal: let statement expected"
      else do
        let t ← peekTok st
        .error (errAt t "Expected method or field in class")
    else .ok ([], [], st)

/-- `parseDataDecl()`. -/
def parseDataDecl : Nat → PState → Except String (Stmt × PState)
  | 0, _ => .error "parser out of fuel"
  | n + 1, st => do
    let (_, st1) ← advanceTok st
    let (nameTok, st2) ← consumeTok .IDENTIFIER "Expected data class name" st1
    let (_, st3) ← consumeTok .LPAREN "Expected \"(\" after data class name" st2
    let (fields, st4) ← parseParameters n st3
    let (_, st5) ← consumeTok .RPAREN "Expected \")\" after data class fields" st4
    .ok (.dataDecl nameTok.value fields, st5)

/-- `parseTraitDecl()`. -/
def parseTraitDecl : Nat → PState → Except String (Stmt × PState)
  | 0, _ => .error "parser out of fuel"
  | n + 1, st => do
    let (_, st1) ← advanceTok st
    let (nameTok, st2) ← consumeTok .IDENTIFIER "Expected trait name" st1
    let (_, st3) ← consumeTok .LBRACE "Expected \"\x7b\" before trait body" st2
    let (methods, st4) ← parseTraitBody n st3
    let (_, st5) ← consumeTok .RBRACE "Expected \"\x7d\" after trait body" st4
    .ok (.traitDecl nameTok.value methods, st5)

/-- The trait-body loop of method signatures. -/
def parseTraitBody : Nat → PState → Except String (List TraitSigNode × PState)
  | 0, _ => .error "parser out of fuel"
  | n + 1, st =>
    if !check .RBRACE st ∧ !(isAtEnd st) then do
      let (_, st1) ← consumeTok .FUN "Expected function signature in trait" st
      let (nameTok, st2) ← consumeTok .IDENTIFIER "Expected method name" st1
      let (_, st3) ← consumeTok .LPAREN "Expected \"(\"" st2
      let (params, st4) ← parseParameters n st3
      let (_, st5) ← consumeTok .RPAREN "Expected \")\"" st4
      let (hasArrow, st6) := matchTok .ARROW st5
      let (returnType, st7) ←
        if hasArrow then do
          let (t, s) ← parseTypeAnn n st6
          .ok (some t, s)
        else .ok (Option.none, st6)
      let (rest, st8) ← parseTraitBody n st7
      .ok (.mk nameTok.value params returnType :: rest, st8)
    else .ok ([], st)

/-- `parseIfStatement()`. -/
def parseIfStatement : Nat → PState → Except String (Stmt × PState)
  | 0, _ => .error "parser out of fuel"
  | n + 1, st => do
    let (_, st1) ← advanceTok st
    let (condition, st2) ← parseExpression n st1
    let (thenBranch, st3) ← parseBlock n st2
    let (hasElse, st4) := matchTok .ELSE st3
    if hasElse then
      if check .IF st4 then do
        let (e, st5) ← parseIfStatement n st4
        .ok (.ifS condition thenBranch (some e), st5)
      else do
        let (b, st5) ← parseBlock n st4
        .ok (.ifS condition thenBranch (some (.block b)), st5)
    else .ok (.ifS condition thenBranch Option.none, st4)

/-- `parseWhileStatement()`. -/
def parseWhileStatement : Nat → PState → Except String (Stmt × PState)
  | 0, _ => .error "parser out of fuel"
  | n + 1, st => do
    let (_, st1) ← advanceTok st
    let (condition, st2) ← parseExpression n st1
    let (body, st3) ← parseBlock n st2
    .ok (.whileS condition body, st3)

/-- `parseForStatement()`. -/
def parseForStatement : Nat → PState → Except String (Stmt × PState)
  | 0, _ => .error "parser out of fuel"
  | n + 1, st => do
    let (_, st1) ← advanceTok st
    let (varTok, st2) ← consumeTok .IDENTIFIER "Expected variable name" st1
    let (_, st3) ← consumeTok .IN "Expected \"in\" or \"в\"" st2
    let (iterable, st4) ← parseExpression n st3
    let (body, st5) ← parseBlock n st4
    .ok (.forS varTok.value iterable body, st5)

/-- `parseMatchStatement()`. -/
def parseMatchStatement : Nat → PState → Except String (Stmt × PState)
  | 0, _ => .error "parser out of fuel"
  | n + 1, st => do
    let (_, st1) ← advanceTok st
    let (subject, st2) ← parseExpression n st1
    let (_, st3) ← consumeTok .LBRACE "Expected \"\x7b\"" st2
    let (arms, st4) ← parseArms n st3
    let (_, st5) ← consumeTok .RBRACE "Expected \"\x7d\"" st4
    .ok (.matchS subject arms, st5)

/-- The arm loop (commas between arms optional). -/
def parseArms : Nat → PState → Except String (List MatchArmNode × PState)
  | 0, _ => .error "parser out of fuel"
  | n + 1, st =>
    if !check .RBRACE st ∧ !(isAtEnd st) then do
      let (arm, st1) ← parseMatchArm n st
      let (_, st2) := matchTok .COMMA st1
      let (rest, st3) ← parseArms n st2
      .ok (arm :: rest, st3)
    else .ok ([], st)

/-- `parseMatchArm()`: pattern, optional `if` guard, `=>`, body. -/
def parseMatchArm : Nat → PState → Except String (MatchArmNode × PState)
  | 0, _ => .error "parser out of fuel"
  | n + 1, st => do
    let (pattern, st1) ← parsePattern n st
    let (hasGuard, st2) := matchTok .IF st1
    let (guard, st3) ←
      if hasGuard then do
        let (g, s) ← parseExpression n st2
        .ok (some g, s)
      else .ok (Option.none, st2)
    let (_, st4) ← consumeTok .FAT_ARROW "Expected \"=>\" in match arm" st3
    let (body, st5) ← parseExpression n st4
    .ok (.mk pattern guard body, st5)

/-- `parsePattern()`. -/
def parsePattern : Nat → PState → Except String (Pattern × PState)
  | 0, _ => .error "parser out of fuel"
  | n + 1, st => do
    let (isWild, stW) := matchTok .UNDERSCORE st
    if isWild then .ok (.wildcard, stW)
    else if check .INTEGER st ∨ check .FLOAT st then do
      let (start, st1) ← parseLiteral st
      let (isRange, st2) := matchTok .RANGE st1
      if isRange then do
        let (stop, st3) ← parseLiteral st2
        .ok (.rangeP (.lit start) (.lit stop), st3)
      else .ok (.litP start, st2)
    else if check .STRING st ∨ check .TRUE st ∨ check .FALSE st then do
      let (l, st1) ← parseLiteral st
      .ok (.litP l, st1)
    else if check .IDENTIFIER st then do
      let (nameTok, st1) ← advanceTok st
      let (hasParen, st2) := matchTok .LPAREN st1
      if hasParen then do
        let (args, st3) ←
          if check .RPAREN st2 then .ok ([], st2)
          else parsePatternArgs n st2
        let (_, st4) ← consumeTok .RPAREN "Expected \")\"" st3
        .ok (.ctorP nameTok.value args, st4)
      else .ok (.identP nameTok.value, st2)
    else do
      let t ← peekTok st
      .error (errAt t "Expected pattern")

/-- The constructor-pattern argument do/while loop. -/
def parsePatternArgs : Nat → PState → Except String (List Pattern × PState)
  | 0, _ => .error "parser out of fuel"
  | n + 1, st => do
    let (p, st1) ← parsePattern n st
    let (hasComma, st2) := matchTok .COMMA st1
    if hasComma then do
      let (rest, st3) ← parsePatternArgs n st2
      .ok (p :: rest, st3)
    else .ok ([p], st2)

/-- `parseReturnStatement()`. -/
def parseReturnStatement : Nat → PState → Except String (Stmt × PState)
  | 0, _ => .error "parser out of fuel"
  | n + 1, st => do
    let (_, st1) ← advanceTok st
    if !check .RBRACE st1 ∧ !check .EOF st1 ∧ !check .SEMICOLON st1 then do
      let (value, st2) ← parseExpression n st1
      .ok (.returnS (some value), st2)
    else .ok (.returnS Option.none, st1)

/-- `parseBlock()`. -/
def parseBlock : Nat → PState → Except String (List Stmt × PState)
  | 0, _ => .error "parser out of fuel"
  | n + 1, st => do
    let (_, st1) ← consumeTok .LBRACE "Expected \"\x7b\"" st
    let (statements, st2) ← parseBlockStmts n st1
    let (_, st3) ← consumeTok .RBRACE "Expected \"\x7d\"" st2
    .ok (statements, st3)

/-- The statement loop inside a block. -/
def parseBlockStmts : Nat → PState → Except String (List Stmt × PState)
  | 0, _ => .error "parser out of fuel"
  | n + 1, st =>
    if !check .RBRACE st ∧ !(isAtEnd st) then do
      let (s, st1) ← parseStatement n st
      let (rest, st2) ← parseBlockStmts n st1
      .ok (s :: rest, st2)
    else .ok ([], st)

/-- `parseExpression()` = assignment level. -/
def parseExpression : Nat → PState → Except String (Expr × PState)
  | 0, _ => .error "parser out of fuel"
  | n + 1, st => parseAssignment n st

/-- `parseAssignment()`: right-associative `=`; target must be an
identifier, member, or index expression. -/
def parseAssignment : Nat → PState → Except String (Expr × PState)
  | 0, _ => .error "parser out of fuel"
  | n + 1, st => do
    let (expr, st1) ← parsePipe n st
    let (hasAssign, st2) := matchTok .ASSIGN st1
    if hasAssign then do
      let (value, st3) ← parseAssignment n st2
      match expr with
      | .ident _ => .ok (.assign expr value, st3)
      | .member _ _ => .ok (.assign expr value, st3)
      | .indexE _ _ => .ok (.assign expr value, st3)
      | _ => do
        let t ← previousTok st3
        .error (errAt t "Invalid assignment target")
    else .ok (expr, st2)

/-- `parsePipe()`: left-associative `|>` over the or level. -/
def parsePipe : Nat → PState → Except String (Expr × PState)
  | 0, _ => .error "parser out of fuel"
  | n + 1, st => do
    let (left, st1) ← parseOr n st
    parsePipeLoop n left st1

def parsePipeLoop : Nat → Expr → PState → Except String (Expr × PState)
  | 0, _, _ => .error "parser out of fuel"
  | n + 1, left, st =>
    let (hasPipe, st1) := matchTok .PIPE st
    if hasPipe then do
      let (right, st2) ← parseOr n st1
      parsePipeLoop n (.pipe left right) st2
    else .ok (left, st1)

/-- `parseOr()`: left-associative `||`. -/
def parseOr : Nat → PState → Except String (Expr × PState)
  | 0, _ => .error "parser out of fuel"
  | n + 1, st => do
    let (left, st1) ← parseAnd n st
    parseOrLoop n left st1

def parseOrLoop : Nat → Expr → PState → Except String (Expr × PState)
  | 0, _, _ => .error "parser out of fuel"
  | n + 1, left, st =>
    let (hasOr, st1) := matchTok .OR st
    if hasOr then do
      let (right, st2) ← parseAnd n st1
      parseOrLoop n (.binary "||" left right) st2
    else .ok (left, st1)

/-- `parseAnd()`: left-associative `&&`. -/
def parseAnd : Nat → PState → Except String (Expr × PState)
  | 0, _ => .error "parser out of fuel"
  | n + 1, st => do
    let (left, st1) ← parseEquality n st
    parseAndLoop n left st1

def parseAndLoop : Nat → Expr → PState → Except String (Expr × PState)
  | 0, _, _ => .error "parser out of fuel"
  | n + 1, left, st =>
    let (hasAnd, st1) := matchTok .AND st
    if hasAnd then do
      let (right, st2) ← parseEquality n st1
      parseAndLoop n (.binary "&&" left right) st2
    else .ok (left, st1)

/-- `parseEquality()`: left-associative `==` / `!=`, operator taken from
the token's lexeme. -/
def parseEquality : Nat → PState → Except String (Expr × PState)
  | 0, _ => .error "parser out of fuel"
  | n + 1, st => do
    let (left, st1) ← parseComparison n st
    parseEqualityLoop n left st1

def parseEqualityLoop : Nat → Expr → PState → Except String (Expr × PState)
  | 0, _, _ => .error "parser out of fuel"
  | n + 1, left, st =>
    if check .EQ st ∨ check .NE st then do
      let (opTok, st1) ← advanceTok st
      let (right, st2) ← parseComparison n st1
      parseEqualityLoop n (.binary opTok.value left right) st2
    else .ok (left, st)

/-- `parseComparison()`: left-associative `< > <= >=`. -/
def parseComparison : Nat → PState → Except String (Expr × PState)
  | 0, _ => .error "parser out of fuel"
  | n + 1, st => do
    let (left, st1) ← parseAdditive n st
    parseComparisonLoop n left st1

def parseComparisonLoop : Nat → Expr → PState → Except String (Expr × PState)
  | 0, _, _ => .error "parser out of fuel"
  | n + 1, left, st =>
    if check .LT st ∨ check .GT st ∨ check .LE st ∨ check .GE st then do
      let (opTok, st1) ← advanceTok st
      let (right, st2) ← parseAdditive n st1
      parseComparisonLoop n (.binary opTok.value left right) st2
    else .ok (left, st)

/-- `parseAdditive()`: left-associative `+ -`. -/
def parseAdditive : Nat → PState → Except String (Expr × PState)
  | 0, _ => .error "parser out of fuel"
  | n + 1, st => do
    let (left, st1) ← parseMultiplicative n st
    parseAdditiveLoop n left st1

def parseAdditiveLoop : Nat → Expr → PState → Except String (Expr × PState)
  | 0, _, _ => .error "parser out of fuel"
  | n + 1, left, st =>
    if check .PLUS st ∨ check .MINUS st then do
      let (opTok, st1) ← advanceTok st
      let (right, st2) ← parseMultiplicative n st1
      parseAdditiveLoop n (.binary opTok.value left right) st2
    else .ok (left, st)

/-- `parseMultiplicative()`: left-associative `* / %`. -/
def parseMultiplicative : Nat → PState → Except String (Expr × PState)
  | 0, _ => .error "parser out of fuel"
  | n + 1, st => do
    let (left, st1) ← parsePower n st
    parseMultiplicativeLoop n left st1

def parseMultiplicativeLoop : Nat → Expr → PState → Except String (Expr × PState)
  | 0, _, _ => .error "parser out of fuel"
  | n + 1, left, st =>
    if check .STAR st ∨ check .SLASH st ∨ check .PERCENT st then do
      let (opTok, st1) ← advanceTok st
      let (right, st2) ← parsePower n st1
      parseMultiplicativeLoop n (.binary opTok.value left right) st2
    else .ok (left, st)

/-- `parsePower()`: its operand is the *unary* level, and a `**` recurses
into the power level on the right (right-associative). -/
def parsePower : Nat → PState → Except String (Expr × PState)
  | 0, _ => .error "parser out of fuel"
  | n + 1, st => do
    let (left, st1) ← parseUnary n st
    let (hasPower, st2) := matchTok .POWER st1
    if hasPower then do
      let (right, st3) ← parsePower n st2
      .ok (.binary "**" left right, st3)
    else .ok (left, st2)

/-- `parseUnary()`: prefix `!`/`-` (operator text from the lexeme),
recursing into the unary level; otherwise postfix. -/
def parseUnary : Nat → PState → Except String (Expr × PState)
  | 0, _ => .error "parser out of fuel"
  | n + 1, st =>
    if check .NOT st ∨ check .MINUS st then do
      let (opTok, st1) ← advanceTok st
      let (operand, st2) ← parseUnary n st1
      .ok (.unary opTok.value operand, st2)
    else parsePostfix n st

/-- `parsePostfix()`: chains of call, member, and index. -/
def parsePostfix : Nat → PState → Except String (Expr × PState)
  | 0, _ => .error "parser out of fuel"
  | n + 1, st => do
    let (expr, st1) ← parsePrimary n st
    parsePostfixLoop n expr st1

def parsePostfixLoop : Nat → Expr → PState → Except String (Expr × PState)
  | 0, _, _ => .error "parser out of fuel"
  | n + 1, expr, st =>
    let (hasLParen, st1) := matchTok .LPAREN st
    if hasLParen then do
      let (args, st2) ←
        if check .RPAREN st1 then .ok ([], st1)
        else parseArgsLoop n st1
      let (_, st3) ← consumeTok .RPAREN "Expected \")\" after arguments" st2
      parsePostfixLoop n (.call expr args) st3
    else
      let (hasDot, st2) := matchTok .DOT st
      if hasDot then do
        let (propTok, st3) ← consumeTok .IDENTIFIER "Expected property name" st2
        parsePostfixLoop n (.member expr propTok.value) st3
      else
        let (hasBracket, st3) := matchTok .LBRACKET st
        if hasBracket then do
          let (index, st4) ← parseExpression n st3
          let (_, st5) ← consumeTok .RBRACKET "Expected \"]\"" st4
          parsePostfixLoop n (.indexE expr index) st5
        else .ok (expr, st)

/-- The comma-separated expression do/while loop (call arguments, list
elements, `new` arguments, `print` arguments). -/
def parseArgsLoop : Nat → PState → Except String (List Expr × PState)
  | 0, _ => .error "parser out of fuel"
  | n + 1, st => do
    let (e, st1) ← parseExpression n st
    let (hasComma, st2) := matchTok .COMMA st1
    if hasComma then do
      let (rest, st3) ← parseArgsLoop n st2
      .ok (e :: rest, st3)
    else .ok ([e], st2)

/-- `parsePrimary()`. -/
def parsePrimary : Nat → PState → Except String (Expr × PState)
  | 0, _ => .error "parser out of fuel"
  | n + 1, st =>
    if check .INTEGER st ∨ check .FLOAT st ∨ check .STRING st ∨ check .TRUE st
        ∨ check .FALSE st ∨ check .NONE st then do
      let (l, st1) ← parseLiteral st
      .ok (.lit l, st1)
    else if check .LPAREN st then parseParenOrLambda n st
    else
      let (hasBracket, stB) := matchTok .LBRACKET st
      if hasBracket then do
        let (elements, st1) ←
          if check .RBRACKET stB then .ok ([], stB)
          else parseArgsLoop n stB
        let (_, st2) ← consumeTok .RBRACKET "Expected \"]\"" st1
        .ok (.listE elements, st2)
      else
        let (hasNew, stN) := matchTok .NEW st
        if hasNew then do
          let (nameTok, st1) ← consumeTok .IDENTIFIER "Expected class name" stN
          let (_, st2) ← consumeTok .LPAREN "Expected \"(\"" st1
          let (args, st3) ←
            if check .RPAREN st2 then .ok ([], st2)
            else parseArgsLoop n st2
          let (_, st4) ← consumeTok .RPAREN "Expected \")\"" st3
          .ok (.newE nameTok.value args, st4)
        else
          let (hasAwait, stA) := matchTok .AWAIT st
          if hasAwait then do
            let (e, st1) ← parseExpression n stA
            .ok (.awaitE e, st1)
          else
            let (hasPrint, stP) := matchTok .PRINT st
            if hasPrint then do
              let (_, st1) ← consumeTok .LPAREN "Expected \"(\" after print" stP
              let (args, st2) ←
                if check .RPAREN st1 then .ok ([], st1)
                else parseArgsLoop n st1
              let (_, st3) ← consumeTok .RPAREN "Expected \")\"" st2
              .ok (.call (.ident "__print__") args, st3)
            else
              let (hasSelf, stS) := matchTok .SELF st
              if hasSelf then .ok (.ident "self", stS)
              else if check .IDENTIFIER st then do
                let (t, st1) ← advanceTok st
                .ok (.ident t.value, st1)
              else do
                let t ← peekTok st
                .error (errAt t "Expected expression")

/-- `parseParenOrLambda()`: speculative lambda parameters with rewind to
the `(` on failure, else a grouped expression. -/
def parseParenOrLambda : Nat → PState → Except String (Expr × PState)
  | 0, _ => .error "parser out of fuel"
  | n + 1, st => do
    let (_, st1) ← consumeTok .LPAREN "Expected \"(\"" st
    if check .RPAREN st1 then do
      let (_, st2) ← advanceTok st1
      if check .ARROW st2 ∨ check .FAT_ARROW st2 then parseLambdaBody n [] st2
      else .ok (.listE [], st2)
    else
      let speculative : Except String (List Param × PState) := do
        let (params, s) ← parseParameters n st1
        let (_, s') ← consumeTok .RPAREN "Expected \")\"" s
        .ok (params, s')
      match speculative with
      | .ok (params, st2) =>
        if check .ARROW st2 ∨ check .FAT_ARROW st2 then parseLambdaBody n params st2
        else do
          let (expr, st3) ← parseExpression n st1
          let (_, st4) ← consumeTok .RPAREN "Expected \")\"" st3
          .ok (expr, st4)
      | .error _ => do
        let (expr, st3) ← parseExpression n st1
        let (_, st4) ← consumeTok .RPAREN "Expected \")\"" st3
        .ok (expr, st4)

/-- `parseLambdaBody()`: consume the arrow, then a block or expression
body. -/
def parseLambdaBody : Nat → List Param → PState → Except String (Expr × PState)
  | 0, _, _ => .error "parser out of fuel"
  | n + 1, params, st => do
    let (_, st1) ← advanceTok st
    if check .LBRACE st1 then do
      let (body, st2) ← parseBlock n st1
      .ok (.lambda params (.block body), st2)
    else do
      let (body, st2) ← parseExpression n st1
      .ok (.lambda params (.expr body), st2)

/-- `parseTypeAnnotation()`. -/
def parseTypeAnn : Nat → PState → Except String (TypeAnn × PState)
  | 0, _ => .error "parser out of fuel"
  | n + 1, st => do
    let (nameTok, st1) ← consumeTok .IDENTIFIER "Expected type name" st
    let (hasLt, st2) := matchTok .LT st1
    if hasLt then do
      let (generics, st3) ← parseGenericsLoop n st2
      let (_, st4) ← consumeTok .GT "Expected \">\" after generic types" st3
      .ok (.mk nameTok.value (some generics), st4)
    else .ok (.mk nameTok.value Option.none, st2)

/-- The generics do/while loop. -/
def parseGenericsLoop : Nat → PState → Except String (List TypeAnn × PState)
  | 0, _ => .error "parser out of fuel"
  | n + 1, st => do
    let (t, st1) ← parseTypeAnn n st
    let (hasComma, st2) := matchTok .COMMA st1
    if hasComma then do
      let (rest, st3) ← parseGenericsLoop n st2
      .ok (t :: rest, st3)
    else .ok ([t], st2)

end

/-- Run the expression parser on a token stream from position 0. -/
def parseExpressionTop (fuel : Nat) (tokens : List Token) :
    Except String (Expr × PState) :=
  parseExpression fuel { tokens := tokens, pos := 0 }

end Parser

/-! ## Concrete fixtures used by the claim theorems -/

/-- Token fixture (positions are immaterial to the claims). -/
def tokOf (t : TokType) (v : String) : Token := ⟨t, v, 1, 1⟩

/-- The closure body `return x` where `x` is upvalue 0 (descriptor:
capture the enclosing frame's local 0). -/
def cexC2fn : CompiledFunction :=
  { name := "f", arity := 0, localCount := 0, upvalueCount := 1,
    upvalues := [⟨true, 0⟩],
    code := [⟨OpCode.LOAD_UPVALUE, some 0⟩, ⟨OpCode.RETURN, Option.none⟩] }

/-- Main code: `x := 1; g := closure over x; x := 2; return g()`. -/
def cexC2mod : CompiledModule :=
  { constants := [.int 1, .function (.compiled cexC2fn), .int 2],
    globals := [], functions := [],
    mainCode :=
      [⟨OpCode.LOAD_CONST, some 0⟩, ⟨OpCode.STORE_VAR, some 0⟩,
       ⟨OpCode.LOAD_CONST, some 1⟩, ⟨OpCode.MAKE_CLOSURE, some 1⟩,
       ⟨OpCode.STORE_VAR, some 1⟩,
       ⟨OpCode.LOAD_CONST, some 2⟩, ⟨OpCode.STORE_VAR, some 0⟩,
       ⟨OpCode.LOAD_VAR, some 1⟩, ⟨OpCode.CALL, some 0⟩,
       ⟨OpCode.HALT, Option.none⟩] }

/-- A method of declared arity 3 (receiver + two parameters). -/
def cexC3method : CompiledFunction :=
  { name := "m", arity := 3, localCount := 3, upvalueCount := 0,
    upvalues := [], code := [⟨OpCode.RETURN, Option.none⟩] }

/-- The caller's frame, its `ip` already advanced past the `CALL`. -/
def cexC3mainFrame : CallFrame :=
  { fn := { name := "__main__", arity := 0, localCount := 0, upvalueCount := 0,
            upvalues := [], code := [⟨OpCode.CALL, some 2⟩] },
    ip := 1, stackBase := 0, locals := [], upvalues := [] }

/-- VM state at `CALL 2`: stack (top first) holds the bound-method callee,
then the last-declared argument `20`, then the first-declared `10`. -/
def cexC3state : VMState :=
  { stack := [.boundMethod (.int 99) cexC3method, .int 20, .int 10],
    globals := [], frames := [cexC3mainFrame], constants := [],
    globalNames := [], cells := [], instHeap := [], output := [] }

/-- The state the model's `CALL` produces: the method's frame carries
locals `[receiver, 20, 10]` — the two arguments in *reverse* declaration
order. -/
def cexC3after : VMState :=
  { stack := [],
    globals := [],
    frames := [{ fn := cexC3method, ip := 0, stackBase := 0,
                 locals := [.int 99, .int 20, .int 10], upvalues := [] },
               cexC3mainFrame],
    constants := [], globalNames := [], cells := [], instHeap := [], output := [] }

/-- A module whose `globals` table carries the same name in two slots:
write slot 0, read slot 1. -/
def cexC5modDup : CompiledModule :=
  { constants := [.int 7], globals := ["x", "x"], functions := [],
    mainCode :=
      [⟨OpCode.LOAD_CONST, some 0⟩, ⟨OpCode.STORE_GLOBAL, some 0⟩,
       ⟨OpCode.LOAD_GLOBAL, some 1⟩, ⟨OpCode.HALT, Option.none⟩] }

/-- The same code and slots, with distinct names in the table. -/
def cexC5modDistinct : CompiledModule :=
  { constants := [.int 7], globals := ["y", "x"], functions := [],
    mainCode :=
      [⟨OpCode.LOAD_CONST, some 0⟩, ⟨OpCode.STORE_GLOBAL, some 0⟩,
       ⟨OpCode.LOAD_GLOBAL, some 1⟩, ⟨OpCode.HALT, Option.none⟩] }

/-- The match statement `match 0 { 0 => 1 }`. -/
def cexC6stmt : Stmt :=
  .matchS (.lit (.int 0)) [.mk (.litP (.int 0)) Option.none (.lit (.int 1))]

/-- What the compiler produces for `match 0 { 0 => 1 }` at top level. -/
def cexC6mod : CompiledModule :=
  { constants := [.int 0, .int 1, .none], globals := [], functions := [],
    mainCode :=
      [⟨OpCode.LOAD_CONST, some 0⟩, ⟨OpCode.DUP, Option.none⟩,
       ⟨OpCode.LOAD_CONST, some 0⟩, ⟨OpCode.EQ, Option.none⟩,
       ⟨OpCode.JUMP_IF_FALSE, some 7⟩, ⟨OpCode.LOAD_CONST, some 1⟩,
       ⟨OpCode.JUMP, some 8⟩, ⟨OpCode.LOAD_CONST, some 2⟩,
       ⟨OpCode.POP, Option.none⟩, ⟨OpCode.HALT, Option.none⟩] }

/-- A module whose only instruction carries no operand (as the compiler
emits for `ADD` and the other zero-operand opcodes). -/
def cexC4mod : CompiledModule :=
  { constants := [], globals := [], functions := [],
    mainCode := [⟨OpCode.ADD, Option.none⟩] }

/-- An exact module exercising every serializable constant tag. -/
def witC4fn : CompiledFunction :=
  { name := "f", arity := 1, localCount := 2, upvalueCount := 1,
    upvalues := [⟨true, 0⟩], code := [⟨OpCode.RETURN, some 0⟩] }

def witC4mod : CompiledModule :=
  { constants := [.none, .int 1, .float (1 / 2), .string "hi", .bool true,
                  .function (.compiled witC4fn),
                  .cls { name := "C", fields := ["x"], methods := [("m", witC4fn)] }],
    globals := ["g"], functions := [witC4fn],
    mainCode := [⟨OpCode.LOAD_CONST, some 0⟩, ⟨OpCode.HALT, some 0⟩] }

/-- The item stream `serialize` produces for `witC4mod` (evaluated, not
spelled out). -/
def witC4items : List SItem :=
  match Serializer.serialize witC4mod with
  | .ok l => l
  | .error _ => []

/-! ## Claim theorems -/

/-- C1 (counterexample): `DIV` on two integer-tagged operands whose
mathematical result is the integer `2` pushes a *float*-tagged value —
`VM.div` always wraps the quotient in `Val.float` — refuting the claim
that every binary arithmetic opcode (DIV included) yields an integer tag
on two non-overflowing integer operands. -/
theorem C1_counterexample :
    VM.div (Value.int 6) (Value.int 3) = .ok (Value.float 2)
      ∧ (Value.float 2).isInt = false := by
  constructor
  · have h : (6 / 3 : ℚ) = 2 := by norm_num
    rw [show VM.div (Value.int 6) (Value.int 3) = .ok (Value.float (6 / 3)) from rfl, h]
  · rfl

/-- C1 (amended): tag behavior of the six arithmetic helpers.  ADD, SUB,
MUL, MOD on two ints give an int; POW on two ints gives an int exactly
when the exponent is non-negative; DIV *always* gives a float (or a
zero-divisor error); any float operand makes ADD/SUB/MUL/DIV/POW produce
a float, while MOD rejects float operands outright. -/
theorem C1_theorem :
    (∀ a b : ℚ, VM.add (.int a) (.int b) = .ok (.int (a + b)))
    ∧ (∀ a b : ℚ, VM.sub (.int a) (.int b) = .ok (.int (a - b)))
    ∧ (∀ a b : ℚ, VM.mul (.int a) (.int b) = .ok (.int (a * b)))
    ∧ (∀ a b : ℚ, VM.mod (.int a) (.int b) =
        if b = 0 then .error "Modulo by zero" else .ok (.int (jsRem a b)))
    ∧ (∀ a b : ℚ, VM.pow (.int a) (.int b) =
        if 0 ≤ b then .ok (.int (jsPow a b)) else .ok (.float (jsPow a b)))
    ∧ (∀ a b : ℚ, VM.div (.int a) (.int b) =
        if b = 0 then .error "Division by zero" else .ok (.float (a / b)))
    ∧ (∀ a b : ℚ, VM.add (.float a) (.int b) = .ok (.float (a + b))
        ∧ VM.add (.int a) (.float b) = .ok (.float (a + b))
        ∧ VM.add (.float a) (.float b) = .ok (.float (a + b)))
    ∧ (∀ a b : ℚ, VM.sub (.float a) (.int b) = .ok (.float (a - b))
        ∧ VM.sub (.int a) (.float b) = .ok (.float (a - b)))
    ∧ (∀ a b : ℚ, VM.mul (.float a) (.int b) = .ok (.float (a * b))
        ∧ VM.mul (.int a) (.float b) = .ok (.float (a * b)))
    ∧ (∀ a b : ℚ, VM.div (.float a) (.int b) =
        if b = 0 then .error "Division by zero" else .ok (.float (a / b)))
    ∧ (∀ a b : ℚ, VM.pow (.float a) (.int b) = .ok (.float (jsPow a b))
        ∧ VM.pow (.int a) (.float b) = .ok (.float (jsPow a b)))
    ∧ (∀ a b : ℚ, VM.mod (.float a) (.int b) = .error "Cannot mod"
        ∧ VM.mod (.int a) (.float b) = .error "Cannot mod") := by
  refine ⟨fun a b => rfl, fun a b => rfl, fun a b => rfl, fun a b => rfl,
    fun a b => rfl, fun a b => rfl, fun a b => ⟨rfl, rfl, rfl⟩,
    fun a b => ⟨rfl, rfl⟩, fun a b => ⟨rfl, rfl⟩, fun a b => rfl,
    fun a b => ⟨rfl, rfl⟩, fun a b => ⟨rfl, rfl⟩⟩

/-- C2 (counterexample): a frame's write to its own local is *not*
observed through the closure that captured it.  `cexC2mod` stores `1` in
main's local 0, builds a closure capturing that local (a fresh cell
snapshots the value `1`), overwrites the local with `2` via `STORE_VAR`,
then calls the closure: `LOAD_UPVALUE` yields the stale `1`, refuting
"a write performed through any holder is observed by all other holders"
for the capturing frame. -/
theorem C2_counterexample :
    VM.runModule 100 cexC2mod = .ok (.int 1) ∧ Value.int 1 ≠ Value.int 2 := by
  refine ⟨rfl, ?_⟩
  simp

/-- C2 (amended): sharing holds exactly among holders of the same *cell*:
`STORE_UPVALUE` writes the heap cell named by the frame's slot,
`LOAD_UPVALUE` reads it (so frames whose slots hold the same address
observe each other's writes), `MAKE_CLOSURE` with `isLocal = false`
re-uses the current frame's cell address, and calling a closure installs
the closure's own cell addresses as the new frame's upvalues.  But an
`isLocal = true` capture allocates a *fresh* cell initialized with a copy
of the local's current value — the capturing frame's locals stay
disconnected. -/
theorem C2_theorem :
    (∀ (g : List (Option String × Value)) c gn cl ih out fn ip sb lo ups rest i a v s,
      ups.getD i Option.none = some a →
      VM.executeInstruction ⟨OpCode.STORE_UPVALUE, some i⟩
        ⟨v :: s, g, ⟨fn, ip, sb, lo, ups⟩ :: rest, c, gn, cl, ih, out⟩ =
        .ok (.next ⟨s, g, ⟨fn, ip, sb, lo, ups⟩ :: rest, c, gn, cl.set a v, ih, out⟩))
    ∧ (∀ (g : List (Option String × Value)) c gn cl ih out fn ip sb lo ups rest j a s,
      ups.getD j Option.none = some a →
      VM.executeInstruction ⟨OpCode.LOAD_UPVALUE, some j⟩
        ⟨s, g, ⟨fn, ip, sb, lo, ups⟩ :: rest, c, gn, cl, ih, out⟩ =
        .ok (.next ⟨cl.getD a Value.none :: s, g, ⟨fn, ip, sb, lo, ups⟩ :: rest,
          c, gn, cl, ih, out⟩))
    ∧ (∀ (cl : List Value) a v, a < cl.length → (cl.set a v).getD a Value.none = v)
    ∧ (∀ (frame : CallFrame) (desc : Upvalue) (heap : List Value) a,
      desc.isLocal = false → frame.upvalues.getD desc.index Option.none = some a →
      VM.captureCells frame [desc] heap = ([a], heap))
    ∧ (∀ (frame : CallFrame) (desc : Upvalue) (heap : List Value),
      desc.isLocal = true →
      VM.captureCells frame [desc] heap =
        ([heap.length], heap ++ [frame.locals.getD desc.index Value.none]))
    ∧ (∀ (g : List (Option String × Value)) c gn cl ih out frame rest fn cells s,
      fn.arity = 0 →
      VM.executeInstruction ⟨OpCode.CALL, some 0⟩
        ⟨Value.closure fn cells :: s, g, frame :: rest, c, gn, cl, ih, out⟩ =
        .ok (.next ⟨s, g, ⟨fn, 0, s.length, [], cells.map some⟩ :: frame :: rest,
          c, gn, cl, ih, out⟩)) := by
  refine ⟨?_, ?_, ?_, ?_, ?_, ?_⟩
  · intro g c gn cl ih out fn ip sb lo ups rest i a v s h
    simp only [List.getD, List.get?_eq_getElem?] at h
    simp [VM.executeInstruction, VM.pop, Bind.bind, Except.bind, List.getD, h]
  · intro g c gn cl ih out fn ip sb lo ups rest j a s h
    simp only [List.getD, List.get?_eq_getElem?] at h
    simp [VM.executeInstruction, Bind.bind, Except.bind, List.getD, h]
  · intro cl a v h
    simp [List.getD, List.getElem?_set_self, h]
  · intro frame desc heap a hLocal hSlot
    simp only [List.getD, List.get?_eq_getElem?] at hSlot
    simp [VM.captureCells, List.getD, hLocal, hSlot]
  · intro frame desc heap hLocal
    simp [VM.captureCells, hLocal]
  · intro g c gn cl ih out frame rest fn cells s hArity
    simp [VM.executeInstruction, VM.pop, VM.popN, Bind.bind, Except.bind, hArity]

/-- C2 (witness): the amended sharing facts at concrete inputs. -/
theorem C2_witness :
    (VM.executeInstruction ⟨OpCode.STORE_UPVALUE, some 0⟩
      ⟨[Value.int 5], [], [⟨cexC2fn, 0, 0, [], [some 0]⟩], [], [], [Value.int 1], [], []⟩ =
      .ok (.next ⟨[], [], [⟨cexC2fn, 0, 0, [], [some 0]⟩], [], [],
        [Value.int 5], [], []⟩))
    ∧ (([Value.int 1].set 0 (Value.int 5)).getD 0 Value.none = Value.int 5)
    ∧ (VM.captureCells ⟨cexC2fn, 0, 0, [], [some 3]⟩ [⟨false, 0⟩] [] = ([3], []))
    ∧ (VM.captureCells ⟨cexC2fn, 0, 0, [Value.int 1], []⟩ [⟨true, 0⟩] [] =
        ([0], [Value.int 1])) := by
  refine ⟨?_, ?_, ?_, ?_⟩
  · exact C2_theorem.1 [] [] [] [Value.int 1] [] [] cexC2fn 0 0 [] [some 0] [] 0 0
      (Value.int 5) [] rfl
  · exact C2_theorem.2.2.1 [Value.int 1] 0 (Value.int 5) (by decide)
  · exact C2_theorem.2.2.2.1 ⟨cexC2fn, 0, 0, [], [some 3]⟩ ⟨false, 0⟩ [] 3 rfl rfl
  · exact C2_theorem.2.2.2.2.1 ⟨cexC2fn, 0, 0, [Value.int 1], []⟩ ⟨true, 0⟩ [] rfl

/-- C3: at `CALL 2` on a bound method the model pops the callee and both
arguments and starts the method's frame — but the "fix order" line of the
source reverses the argument segment, so the locals come out
`[receiver, 20, 10]`: slots 1..n hold the arguments in *reverse*
declaration order, contradicting the claim (the arity check itself
matches the claim).  The declared-order locals `[receiver, 10, 20]` are
what the claim requires. -/
theorem C3_theorem :
    VM.executeInstruction ⟨OpCode.CALL, some 2⟩ cexC3state = .ok (.next cexC3after)
      ∧ cexC3after.frames.head?.map (fun f => f.locals) =
          some [Value.int 99, Value.int 20, Value.int 10]
      ∧ ([Value.int 99, Value.int 20, Value.int 10] : List Value) ≠
          [Value.int 99, Value.int 10, Value.int 20] := by
  refine ⟨rfl, rfl, ?_⟩
  simp

/-- Helper: a `Map.set` is read back by `Map.get` of the same key. -/
theorem mapGet_mapSet_self (m : List (Option String × Value)) (k : Option String)
    (v : Value) : mapGet (mapSet m k v) k = some v := by
  induction m with
  | nil => simp [mapGet, mapSet]
  | cons e rest ih =>
    obtain ⟨k', v'⟩ := e
    by_cases h : k' == k
    · simp [mapGet, mapSet, h]
    · simp only [mapSet, h, if_neg]
      simp only [mapGet, List.find?] at ih ⊢
      simp [h, ih]

/-- Helper: a `Map.set` leaves other keys' values unchanged. -/
theorem mapGet_mapSet_ne (m : List (Option String × Value)) (k k' : Option String)
    (v : Value) (hne : k ≠ k') : mapGet (mapSet m k v) k' = mapGet m k' := by
  induction m with
  | nil => simp [mapGet, mapSet, List.find?, show (k == k') = false by simpa using hne]
  | cons e rest ih =>
    obtain ⟨k₀, v₀⟩ := e
    by_cases h : k₀ == k
    · have hk : k₀ = k := by simpa using h
      subst hk
      simp [mapGet, mapSet, h, List.find?, show (k₀ == k') = false by simpa using hne]
    · simp only [mapSet, h, if_neg]
      simp only [mapGet, List.find?] at ih ⊢
      by_cases h2 : k₀ == k'
      · simp [h2]
      · simp [h2, ih]

/-- Helper: `indexOf` of a contained name is a valid index holding it. -/
theorem listIndexOf_spec (l : List String) (s : String) (h : l.contains s = true) :
    l.get? (listIndexOf l s) = some s ∧ listIndexOf l s < l.length := by
  induction l with
  | nil => simp at h
  | cons x xs ih =>
    by_cases hx : x == s
    · have : x = s := by simpa using hx
      subst this
      simp [listIndexOf]
    · have hx' : x ≠ s := by simpa using hx
      have hxs : xs.contains s = true := by
        simp only [List.contains_cons, Bool.or_eq_true, beq_iff_eq] at h
        rcases h with h | h
        · exact (hx' h.symm).elim
        · exact h
      obtain ⟨h1, h2⟩ := ih hxs
      refine ⟨?_, ?_⟩
      · simpa [listIndexOf, hx] using h1
      · simpa [listIndexOf, hx] using Nat.succ_lt_succ h2

/-- C5 (counterexample): runtime global storage is keyed by *name*, not
slot.  Two modules with byte-identical code, constants, and slot operands
— differing only in the names their `globals` tables carry — behave
differently: with `globals = ["x","x"]` a `STORE_GLOBAL 0` is read back by
`LOAD_GLOBAL 1` (yielding 7), with `globals = ["y","x"]` it is not
(yielding none).  So what `LOAD_GLOBAL i` reads is not determined by the
slot index `i` (and dense slot storage would never alias two slots),
refuting "reads or writes storage determined only by the slot index i …
never by a name lookup". -/
theorem C5_counterexample :
    VM.runModule 20 cexC5modDup = .ok (.int 7)
      ∧ VM.runModule 20 cexC5modDistinct = .ok Value.none
      ∧ cexC5modDup.mainCode = cexC5modDistinct.mainCode
      ∧ cexC5modDup.constants = cexC5modDistinct.constants
      ∧ (Except.ok (Value.int 7) : Except String Value) ≠ .ok Value.none := by
  refine ⟨rfl, rfl, rfl, rfl, ?_⟩
  simp

/-- C5 (amended): `LOAD_GLOBAL i` / `STORE_GLOBAL i` map the slot through
the module's `globals` table to a *name* and then access the name-keyed
globals map; when names are unique this behaves like dense slot storage
(a store to a slot is read back by loads of that slot, and stores to
slots with different names don't interfere).  On the compiler side,
`addGlobal` returns a valid index into the table whose entry is the name,
and keeps the table duplicate-free. -/
theorem C5_theorem :
    (∀ (g : List (Option String × Value)) c (gn : List String) cl ih out frame rest s i name,
      gn.get? i = some name →
      VM.executeInstruction ⟨OpCode.LOAD_GLOBAL, some i⟩
        ⟨s, g, frame :: rest, c, gn, cl, ih, out⟩ =
        .ok (.next ⟨(mapGet g (some name)).getD Value.none :: s, g, frame :: rest,
          c, gn, cl, ih, out⟩))
    ∧ (∀ (g : List (Option String × Value)) c (gn : List String) cl ih out frame rest v s i name,
      gn.get? i = some name →
      VM.executeInstruction ⟨OpCode.STORE_GLOBAL, some i⟩
        ⟨v :: s, g, frame :: rest, c, gn, cl, ih, out⟩ =
        .ok (.next ⟨s, mapSet g (some name) v, frame :: rest, c, gn, cl, ih, out⟩))
    ∧ (∀ (g : List (Option String × Value)) name v,
      mapGet (mapSet g (some name) v) (some name) = some v)
    ∧ (∀ (g : List (Option String × Value)) name name' v, name ≠ name' →
      mapGet (mapSet g (some name) v) (some name') = mapGet g (some name'))
    ∧ (∀ (name : String) (st : CState),
      (Compiler.addGlobal name st).2.globals.get? (Compiler.addGlobal name st).1 = some name
        ∧ (Compiler.addGlobal name st).1 < (Compiler.addGlobal name st).2.globals.length)
    ∧ (∀ (name : String) (st : CState), st.globals.Nodup →
      (Compiler.addGlobal name st).2.globals.Nodup) := by
  refine ⟨?_, ?_, ?_, ?_, ?_, ?_⟩
  · intro g c gn cl ih out frame rest s i name h
    simp only [List.get?_eq_getElem?] at h
    simp [VM.executeInstruction, h]
  · intro g c gn cl ih out frame rest v s i name h
    simp only [List.get?_eq_getElem?] at h
    simp [VM.executeInstruction, VM.pop, Bind.bind, Except.bind, h]
  · intro g name v
    exact mapGet_mapSet_self g (some name) v
  · intro g name name' v hne
    exact mapGet_mapSet_ne g (some name) (some name') v (by simpa using hne)
  · intro name st
    by_cases h : st.globals.contains name
    · have hmem : name ∈ st.globals := by simpa using h
      obtain ⟨h1, h2⟩ := listIndexOf_spec st.globals name h
      simp only [List.get?_eq_getElem?] at h1
      simp [Compiler.addGlobal, h, hmem, h1, h2]
    · have hmem : name ∉ st.globals := by simpa using h
      simp [Compiler.addGlobal, h, hmem, List.getElem?_concat_length]
  · intro name st hnd
    by_cases h : st.globals.contains name
    · have hmem : name ∈ st.globals := by simpa using h
      simpa [Compiler.addGlobal, h, hmem] using hnd
    · have hmem : name ∉ st.globals := by simpa using h
      simp [Compiler.addGlobal, h, hmem, List.nodup_append, hnd]

/-- C5 (witness): the amended facts at concrete inputs — slot 0 named
`"a"` read and written through the name map, roundtrip and independence
on a concrete map, and `addGlobal` on a concrete state. -/
theorem C5_witness :
    (VM.executeInstruction ⟨OpCode.LOAD_GLOBAL, some 0⟩
      ⟨[], [(some "a", Value.int 3)], [cexC3mainFrame], [], ["a"], [], [], []⟩ =
      .ok (.next ⟨[Value.int 3], [(some "a", Value.int 3)], [cexC3mainFrame],
        [], ["a"], [], [], []⟩))
    ∧ (mapGet (mapSet [] (some "a") (Value.int 3)) (some "a") = some (Value.int 3))
    ∧ (mapGet (mapSet [(some "b", Value.int 9)] (some "a") (Value.int 3)) (some "b") =
        some (Value.int 9))
    ∧ ((Compiler.addGlobal "a" initCState).2.globals.get?
        (Compiler.addGlobal "a" initCState).1 = some "a")
    ∧ ((Compiler.addGlobal "a" initCState).2.globals.Nodup) := by
  refine ⟨?_, ?_, ?_, ?_, ?_⟩
  · have h := C5_theorem.1 [(some "a", Value.int 3)] [] ["a"] [] [] []
      cexC3mainFrame [] [] 0 "a" rfl
    simpa using h
  · exact C5_theorem.2.2.1 [] "a" (Value.int 3)
  · exact C5_theorem.2.2.2.1 [(some "b", Value.int 9)] "a" "b" (Value.int 3) (by decide)
  · exact (C5_theorem.2.2.2.2.1 "a" initCState).1
  · exact C5_theorem.2.2.2.2.2 "a" initCState (by simp [initCState])

/-- C6: compiling `match 0 { 0 => 1 }` at top level and running the
emitted code to completion (all nine instructions before `HALT`) leaves
the value stack at depth 1 — the subject `0` is still there — because the
final `POP` (the source's "Remove subject copy") removes the arm's body
value, not the subject.  The claim (and the comment in the source) say
the stack returns to its pre-match depth; the compiled code contradicts
the source's own stated intent, a stack leak. -/
theorem C6_theorem :
    Compiler.compile [cexC6stmt] = .ok cexC6mod
      ∧ Except.map (fun st => st.stack) (VM.runSteps 9 (VM.initState cexC6mod)) =
          .ok [Value.int 0]
      ∧ Except.map (fun st => st.frames.head?.map (fun f => f.ip))
          (VM.runSteps 9 (VM.initState cexC6mod)) = .ok (some 9)
      ∧ ([Value.int 0] : List Value) ≠ [] := by
  refine ⟨?_, rfl, rfl, by simp⟩
  simp [Compiler.compile, Compiler.compileStmtList, Compiler.compileStatement,
    Compiler.compileArms, Compiler.compilePattern, Compiler.compileExpression,
    Compiler.compileLiteral, Compiler.emitConstant, Compiler.addConstant,
    Compiler.valuesEqual, Compiler.emit, Compiler.emitJump, Compiler.patchJump,
    initCState, cexC6stmt, cexC6mod, Bind.bind, Except.bind, Pure.pure, Except.pure,
    List.findIdx?, Option.getD, Compiler.emitLoop]

/-- C9: `&&` and `||` are not short-circuiting.  The compiler emits the
left operand's code, then the right operand's code, then one `AND`/`OR`
opcode — both operands are compiled (hence evaluated) unconditionally —
and the VM's `AND`/`OR` pop both operand values and always push a
boolean-tagged value holding the conjunction/disjunction of their
truthiness, never one of the operands themselves. -/
theorem C9_theorem :
    (∀ (l r : Expr) (st : CState),
      Compiler.compileExpression (.binary "&&" l r) st =
        (do
          let st1 ← Compiler.compileExpression l st
          let st2 ← Compiler.compileExpression r st1
          .ok (Compiler.emit OpCode.AND Option.none st2)))
    ∧ (∀ (l r : Expr) (st : CState),
      Compiler.compileExpression (.binary "||" l r) st =
        (do
          let st1 ← Compiler.compileExpression l st
          let st2 ← Compiler.compileExpression r st1
          .ok (Compiler.emit OpCode.OR Option.none st2)))
    ∧ (∀ (g : List (Option String × Value)) c gn cl ih out frame rest a b s arg,
      VM.executeInstruction ⟨OpCode.AND, arg⟩
        ⟨b :: a :: s, g, frame :: rest, c, gn, cl, ih, out⟩ =
        .ok (.next ⟨Value.bool (isTruthy a && isTruthy b) :: s, g, frame :: rest,
          c, gn, cl, ih, out⟩))
    ∧ (∀ (g : List (Option String × Value)) c gn cl ih out frame rest a b s arg,
      VM.executeInstruction ⟨OpCode.OR, arg⟩
        ⟨b :: a :: s, g, frame :: rest, c, gn, cl, ih, out⟩ =
        .ok (.next ⟨Value.bool (isTruthy a || isTruthy b) :: s, g, frame :: rest,
          c, gn, cl, ih, out⟩)) := by
  refine ⟨?_, ?_, ?_, ?_⟩
  · intro l r st
    cases hl : Compiler.compileExpression l st with
    | error e => simp [Compiler.compileExpression, hl, Bind.bind, Except.bind]
    | ok st1 =>
      cases hr : Compiler.compileExpression r st1 with
      | error e =>
        simp [Compiler.compileExpression, hl, hr, Bind.bind, Except.bind]
      | ok st2 =>
        simp [Compiler.compileExpression, hl, hr, Bind.bind, Except.bind,
          Compiler.binaryOpcode]
  · intro l r st
    cases hl : Compiler.compileExpression l st with
    | error e => simp [Compiler.compileExpression, hl, Bind.bind, Except.bind]
    | ok st1 =>
      cases hr : Compiler.compileExpression r st1 with
      | error e =>
        simp [Compiler.compileExpression, hl, hr, Bind.bind, Except.bind]
      | ok st2 =>
        simp [Compiler.compileExpression, hl, hr, Bind.bind, Except.bind,
          Compiler.binaryOpcode]
  · intro g c gn cl ih out frame rest a b s arg
    simp [VM.executeInstruction, VM.pop, Bind.bind, Except.bind]
  · intro g c gn cl ih out frame rest a b s arg
    simp [VM.executeInstruction, VM.pop, Bind.bind, Except.bind]

/-- C10: reading an undefined variable raises no error.  A `LOAD_GLOBAL`
whose slot's name is absent from the globals map pushes `none` and
execution continues (`.next`); a `LOAD_VAR` of a local slot that was
never written (beyond the locals vector) likewise pushes `none`. -/
theorem C10_theorem :
    (∀ (g : List (Option String × Value)) c (gn : List String) cl ih out frame rest s i name,
      gn.get? i = some name → mapGet g (some name) = Option.none →
      VM.executeInstruction ⟨OpCode.LOAD_GLOBAL, some i⟩
        ⟨s, g, frame :: rest, c, gn, cl, ih, out⟩ =
        .ok (.next ⟨Value.none :: s, g, frame :: rest, c, gn, cl, ih, out⟩))
    ∧ (∀ (g : List (Option String × Value)) c gn cl ih out fn ip sb
        (lo : List Value) ups rest s i,
      lo.length ≤ i →
      VM.executeInstruction ⟨OpCode.LOAD_VAR, some i⟩
        ⟨s, g, ⟨fn, ip, sb, lo, ups⟩ :: rest, c, gn, cl, ih, out⟩ =
        .ok (.next ⟨Value.none :: s, g, ⟨fn, ip, sb, lo, ups⟩ :: rest,
          c, gn, cl, ih, out⟩)) := by
  refine ⟨?_, ?_⟩
  · intro g c gn cl ih out frame rest s i name h1 h2
    simp only [List.get?_eq_getElem?] at h1
    simp [VM.executeInstruction, h1, h2]
  · intro g c gn cl ih out fn ip sb lo ups rest s i h
    simp [VM.executeInstruction, List.getElem?_eq_none h]

/-- C10 (witness): a slot named `"zzz"` with an empty globals map pushes
`none`; a `LOAD_VAR 0` with an empty locals vector pushes `none`. -/
theorem C10_witness :
    (VM.executeInstruction ⟨OpCode.LOAD_GLOBAL, some 0⟩
      ⟨[], [], [cexC3mainFrame], [], ["zzz"], [], [], []⟩ =
      .ok (.next ⟨[Value.none], [], [cexC3mainFrame], [], ["zzz"], [], [], []⟩))
    ∧ (VM.executeInstruction ⟨OpCode.LOAD_VAR, some 0⟩
      ⟨[], [], [⟨cexC2fn, 0, 0, [], []⟩], [], [], [], [], []⟩ =
      .ok (.next ⟨[Value.none], [], [⟨cexC2fn, 0, 0, [], []⟩], [], [], [], [], []⟩)) := by
  refine ⟨?_, ?_⟩
  · exact C10_theorem.1 [] [] ["zzz"] [] [] [] cexC3mainFrame [] [] 0 "zzz" rfl rfl
  · exact C10_theorem.2 [] [] [] [] [] [] cexC2fn 0 0 [] [] [] [] 0 (by decide)

/-- Helper for C7: away from the reserved print identifier, the pipe and
call cases of `compileExpression` run the same sub-compilations in the
same order from the same state. -/
theorem pipeCallCompileEq (a b : Expr) (st : CState) (h : isPrintIdent b = false) :
    Compiler.compileExpression (.pipe a b) st =
      Compiler.compileExpression (.call b [a]) st := by
  cases ha : Compiler.compileExpression a st with
  | error e =>
    simp [Compiler.compileExpression, Compiler.compileExprList, h, ha,
      Bind.bind, Except.bind]
  | ok st1 =>
    cases hb : Compiler.compileExpression b st1 with
    | error e =>
      simp [Compiler.compileExpression, Compiler.compileExprList, h, ha, hb,
        Bind.bind, Except.bind]
    | ok st2 =>
      simp [Compiler.compileExpression, Compiler.compileExprList, h, ha, hb,
        Bind.bind, Except.bind]

/-- Helper for C7: the same equality lifted to whole-module compilation of
the expression statements `a |> b` and `b(a)`. -/
theorem pipeCallModuleEq (a b : Expr) (h : isPrintIdent b = false) :
    Compiler.compile [.exprS (.pipe a b)] = Compiler.compile [.exprS (.call b [a])] := by
  have h1 := pipeCallCompileEq a b initCState h
  simp only [Compiler.compile, Compiler.compileStmtList, Compiler.compileStatement, h1]

/-- C7 (counterexample): with `b` the compiler-reserved print identifier,
`b(a)` takes the `PRINT` special case while `a |> b` compiles an ordinary
`CALL`, so the instruction sequences differ — refuting "for every pair of
expressions a and b" as stated. -/
theorem C7_counterexample :
    Except.map (fun st => st.currentCode)
      (Compiler.compileExpression (.pipe (.lit (.int 5)) (.ident "__print__")) initCState) =
      .ok [⟨OpCode.LOAD_CONST, some 0⟩, ⟨OpCode.LOAD_GLOBAL, some 0⟩,
           ⟨OpCode.CALL, some 1⟩]
    ∧ Except.map (fun st => st.currentCode)
      (Compiler.compileExpression (.call (.ident "__print__") [.lit (.int 5)]) initCState) =
      .ok [⟨OpCode.LOAD_CONST, some 0⟩, ⟨OpCode.PRINT, some 1⟩,
           ⟨OpCode.LOAD_CONST, some 1⟩]
    ∧ ([⟨OpCode.LOAD_CONST, some 0⟩, ⟨OpCode.LOAD_GLOBAL, some 0⟩,
        ⟨OpCode.CALL, some 1⟩] : List Instruction) ≠
      [⟨OpCode.LOAD_CONST, some 0⟩, ⟨OpCode.PRINT, some 1⟩,
       ⟨OpCode.LOAD_CONST, some 1⟩] := by
  refine ⟨?_, ?_, by decide⟩
  · simp [Compiler.compileExpression, Compiler.compileExprList, Compiler.compileIdentifier,
      Compiler.resolveVariable, Compiler.findLocal, Compiler.addGlobal, Compiler.emit,
      Compiler.emitConstant, Compiler.addConstant, Compiler.valuesEqual,
      Compiler.compileLiteral, initCState, Bind.bind, Except.bind, List.findIdx?,
      isPrintIdent, smapGet, listIndexOf, Except.map]
  · simp [Compiler.compileExpression, Compiler.compileExprList, Compiler.emit,
      Compiler.emitConstant, Compiler.addConstant, Compiler.valuesEqual,
      Compiler.compileLiteral, initCState, Bind.bind, Except.bind, List.findIdx?,
      isPrintIdent, Except.map]

/-- C7 (amended): provided the callee is not the compiler-reserved print
identifier, `a |> b` compiles to exactly the state (hence instruction
sequence) of `b(a)`, from any compiler state; consequently whole modules
built from the two forms are equal and running them with any fuel yields
the same outcome. -/
theorem C7_theorem :
    (∀ (a b : Expr) (st : CState), isPrintIdent b = false →
      Compiler.compileExpression (.pipe a b) st =
        Compiler.compileExpression (.call b [a]) st)
    ∧ (∀ (a b : Expr), isPrintIdent b = false →
      Compiler.compile [.exprS (.pipe a b)] = Compiler.compile [.exprS (.call b [a])])
    ∧ (∀ (fuel : Nat) (a b : Expr), isPrintIdent b = false →
      Except.bind (Compiler.compile [.exprS (.pipe a b)]) (fun m => VM.runModule fuel m) =
        Except.bind (Compiler.compile [.exprS (.call b [a])]) (fun m => VM.runModule fuel m)) := by
  refine ⟨pipeCallCompileEq, pipeCallModuleEq, ?_⟩
  intro fuel a b h
  rw [pipeCallModuleEq a b h]

/-- C7 (witness): the amended equivalence at `a = 5`, `b = f`. -/
theorem C7_witness :
    Compiler.compileExpression (.pipe (.lit (.int 5)) (.ident "f")) initCState =
      Compiler.compileExpression (.call (.ident "f") [.lit (.int 5)]) initCState
    ∧ Compiler.compile [.exprS (.pipe (.lit (.int 5)) (.ident "f"))] =
      Compiler.compile [.exprS (.call (.ident "f") [.lit (.int 5)])] := by
  exact ⟨C7_theorem.1 (.lit (.int 5)) (.ident "f") initCState rfl,
    C7_theorem.2.1 (.lit (.int 5)) (.ident "f") rfl⟩

/-- C8 (counterexample): on the tokens of `-a ** b` the parser yields
`(-a) ** b` — the unary level is `**`'s operand, binding *tighter* than
power — not the claimed negation of `a ** b`. -/
theorem C8_counterexample :
    Except.map (fun p => p.1) (Parser.parseExpressionTop 100
      [tokOf .MINUS "-", tokOf .IDENTIFIER "a", tokOf .POWER "**",
       tokOf .IDENTIFIER "b", tokOf .EOF ""]) =
      .ok (.binary "**" (.unary "-" (.ident "a")) (.ident "b"))
    ∧ (Expr.binary "**" (.unary "-" (.ident "a")) (.ident "b")) ≠
      (Expr.unary "-" (.binary "**" (.ident "a") (.ident "b"))) := by
  refine ⟨rfl, ?_⟩
  simp

/-- C8 (amended): the precedence ladder with unary *tighter* than power,
witnessed level by level on concrete token streams (operands are
identifiers `a b c`): `-a**b ↦ (-a)**b`, `!a**b ↦ (!a)**b`,
`a**b**c ↦ a**(b**c)` (right-associative), `a ** -b ↦ a**(-b)`,
`a*b**c ↦ a*(b**c)`, `a+b*c ↦ a+(b*c)`, `a+b<c ↦ (a+b)<c`,
`a<b==c ↦ (a<b)==c`, `a==b&&c ↦ (a==b)&&c`, `a&&b||c ↦ (a&&b)||c`,
`a||b|>c ↦ (a||b)|>c`, `x=a|>b ↦ x=(a|>b)`, and `x=y=z ↦ x=(y=z)`
(right-associative assignment). -/
theorem C8_theorem :
    Except.map (fun p => p.1) (Parser.parseExpressionTop 100
      [tokOf .MINUS "-", tokOf .IDENTIFIER "a", tokOf .POWER "**",
       tokOf .IDENTIFIER "b", tokOf .EOF ""]) =
      .ok (.binary "**" (.unary "-" (.ident "a")) (.ident "b"))
    ∧ Except.map (fun p => p.1) (Parser.parseExpressionTop 100
      [tokOf .NOT "!", tokOf .IDENTIFIER "a", tokOf .POWER "**",
       tokOf .IDENTIFIER "b", tokOf .EOF ""]) =
      .ok (.binary "**" (.unary "!" (.ident "a")) (.ident "b"))
    ∧ Except.map (fun p => p.1) (Parser.parseExpressionTop 100
      [tokOf .IDENTIFIER "a", tokOf .POWER "**", tokOf .IDENTIFIER "b",
       tokOf .POWER "**", tokOf .IDENTIFIER "c", tokOf .EOF ""]) =
      .ok (.binary "**" (.ident "a") (.binary "**" (.ident "b") (.ident "c")))
    ∧ Except.map (fun p => p.1) (Parser.parseExpressionTop 100
      [tokOf .IDENTIFIER "a", tokOf .POWER "**", tokOf .MINUS "-",
       tokOf .IDENTIFIER "b", tokOf .EOF ""]) =
      .ok (.binary "**" (.ident "a") (.unary "-" (.ident "b")))
    ∧ Except.map (fun p => p.1) (Parser.parseExpressionTop 100
      [tokOf .IDENTIFIER "a", tokOf .STAR "*", tokOf .IDENTIFIER "b",
       tokOf .POWER "**", tokOf .IDENTIFIER "c", tokOf .EOF ""]) =
      .ok (.binary "*" (.ident "a") (.binary "**" (.ident "b") (.ident "c")))
    ∧ Except.map (fun p => p.1) (Parser.parseExpressionTop 100
      [tokOf .IDENTIFIER "a", tokOf .PLUS "+", tokOf .IDENTIFIER "b",
       tokOf .STAR "*", tokOf .IDENTIFIER "c", tokOf .EOF ""]) =
      .ok (.binary "+" (.ident "a") (.binary "*" (.ident "b") (.ident "c")))
    ∧ Except.map (fun p => p.1) (Parser.parseExpressionTop 100
      [tokOf .IDENTIFIER "a", tokOf .PLUS "+", tokOf .IDENTIFIER "b",
       tokOf .LT "<", tokOf .IDENTIFIER "c", tokOf .EOF ""]) =
      .ok (.binary "<" (.binary "+" (.ident "a") (.ident "b")) (.ident "c"))
    ∧ Except.map (fun p => p.1) (Parser.parseExpressionTop 100
      [tokOf .IDENTIFIER "a", tokOf .LT "<", tokOf .IDENTIFIER "b",
       tokOf .EQ "==", tokOf .IDENTIFIER "c", tokOf .EOF ""]) =
      .ok (.binary "==" (.binary "<" (.ident "a") (.ident "b")) (.ident "c"))
    ∧ Except.map (fun p => p.1) (Parser.parseExpressionTop 100
      [tokOf .IDENTIFIER "a", tokOf .EQ "==", tokOf .IDENTIFIER "b",
       tokOf .AND "&&", tokOf .IDENTIFIER "c", tokOf .EOF ""]) =
      .ok (.binary "&&" (.binary "==" (.ident "a") (.ident "b")) (.ident "c"))
    ∧ Except.map (fun p => p.1) (Parser.parseExpressionTop 100
      [tokOf .IDENTIFIER "a", tokOf .AND "&&", tokOf .IDENTIFIER "b",
       tokOf .OR "||", tokOf .IDENTIFIER "c", tokOf .EOF ""]) =
      .ok (.binary "||" (.binary "&&" (.ident "a") (.ident "b")) (.ident "c"))
    ∧ Except.map (fun p => p.1) (Parser.parseExpressionTop 100
      [tokOf .IDENTIFIER "a", tokOf .OR "||", tokOf .IDENTIFIER "b",
       tokOf .PIPE "|>", tokOf .IDENTIFIER "c", tokOf .EOF ""]) =
      .ok (.pipe (.binary "||" (.ident "a") (.ident "b")) (.ident "c"))
    ∧ Except.map (fun p => p.1) (Parser.parseExpressionTop 100
      [tokOf .IDENTIFIER "x", tokOf .ASSIGN "=", tokOf .IDENTIFIER "a",
       tokOf .PIPE "|>", tokOf .IDENTIFIER "b", tokOf .EOF ""]) =
      .ok (.assign (.ident "x") (.pipe (.ident "a") (.ident "b")))
    ∧ Except.map (fun p => p.1) (Parser.parseExpressionTop 100
      [tokOf .IDENTIFIER "x", tokOf .ASSIGN "=", tokOf .IDENTIFIER "y",
       tokOf .ASSIGN "=", tokOf .IDENTIFIER "z", tokOf .EOF ""]) =
      .ok (.assign (.ident "x") (.assign (.ident "y") (.ident "z"))) := by
  refine ⟨?_, ?_, ?_, ?_, ?_, ?_, ?_, ?_, ?_, ?_, ?_, ?_, ?_⟩ <;> exact rfl

/-- Helper: applying a reader bind. -/
theorem readerBindApply {α β : Type} (x : Deserializer.Reader α)
    (f : α → Deserializer.Reader β) (l : List SItem) :
    (x >>= f) l =
      match x l with
      | .error e => .error e
      | .ok (a, l') => f a l' := rfl

/-- Helper: applying a reader pure. -/
theorem readerPureApply {α : Type} (a : α) (l : List SItem) :
    (pure a : Deserializer.Reader α) l = .ok (a, l) := rfl

/-- Helper: each primitive read consumes exactly the matching item. -/
theorem readByte_cons (n : Nat) (r : List SItem) :
    Deserializer.readByte (.byte n :: r) = .ok (n, r) := rfl

theorem readU16_cons (n : Nat) (r : List SItem) :
    Deserializer.readUInt16 (.u16 n :: r) = .ok (n, r) := rfl

theorem readU32_cons (n : Nat) (r : List SItem) :
    Deserializer.readUInt32 (.u32 n :: r) = .ok (n, r) := rfl

theorem readDouble_cons (q : ℚ) (r : List SItem) :
    Deserializer.readDouble (.f64 q :: r) = .ok (q, r) := rfl

theorem readString_cons (s : String) (r : List SItem) :
    Deserializer.readString (.sbytes s :: r) = .ok (s, r) := rfl

/-- Helper: reading back one serialized instruction yields it with its
operand made explicit. -/
theorem readInstruction_write (i : Instruction) (rest : List SItem) :
    Deserializer.readInstruction (Serializer.writeInstruction i ++ rest) =
      .ok (normInstr i, rest) := by
  simp [Deserializer.readInstruction, Serializer.writeInstruction, readerBindApply,
    readerPureApply, readByte_cons, readU32_cons, normInstr]

/-- Helper: reading back one serialized upvalue descriptor is exact. -/
theorem readUpvalue_write (up : Upvalue) (rest : List SItem) :
    Deserializer.readUpvalue (Serializer.writeUpvalue up ++ rest) = .ok (up, rest) := by
  obtain ⟨isLocal, index⟩ := up
  cases isLocal <;>
    simp [Deserializer.readUpvalue, Serializer.writeUpvalue, readerBindApply,
      readerPureApply, readByte_cons, readU32_cons]

/-- Helper: a counted read over the concatenation of encodings. -/
theorem readN_flatMap {α β : Type} (enc : α → List SItem) (red : Deserializer.Reader β)
    (f : α → β) (h : ∀ a rest, red (enc a ++ rest) = .ok (f a, rest)) :
    ∀ (xs : List α) (rest : List SItem),
      Deserializer.readN xs.length red (xs.flatMap enc ++ rest) = .ok (xs.map f, rest) := by
  intro xs
  induction xs with
  | nil => intro rest; simp [Deserializer.readN, readerPureApply]
  | cons x xs ih =>
    intro rest
    simp only [List.flatMap_cons, List.append_assoc, List.length_cons, List.map_cons,
      Deserializer.readN, readerBindApply, h, ih, readerPureApply]

/-- Helper: a counted read of length-only-encoded strings. -/
theorem readN_sbytes (xs : List String) (rest : List SItem) :
    Deserializer.readN xs.length Deserializer.readString
      (xs.map SItem.sbytes ++ rest) = .ok (xs, rest) := by
  induction xs generalizing rest with
  | nil => simp [Deserializer.readN, readerPureApply]
  | cons x xs ih =>
    simp only [List.map_cons, List.cons_append, List.length_cons,
      Deserializer.readN, readerBindApply, readString_cons, ih, readerPureApply]

/-- Helper: reading back one serialized function yields it with its
`upvalueCount` re-derived and operands made explicit. -/
theorem readFunction_write (f : CompiledFunction) (rest : List SItem) :
    Deserializer.readFunction (Serializer.writeFunction f ++ rest) =
      .ok (normFun f, rest) := by
  have hUp := readN_flatMap Serializer.writeUpvalue Deserializer.readUpvalue id
    (fun a r => readUpvalue_write a r) f.upvalues
  have hCode := readN_flatMap Serializer.writeInstruction Deserializer.readInstruction
    normInstr (fun a r => readInstruction_write a r) f.code
  simp only [List.map_id] at hUp
  simp [Deserializer.readFunction, Serializer.writeFunction, readerBindApply,
    readerPureApply, readString_cons, readU32_cons, List.append_assoc,
    List.cons_append, hUp, hCode, normFun]

/-- Helper: reading back one serialized class method entry. -/
theorem readMethod_write (m : String × CompiledFunction) (rest : List SItem) :
    (do
      let mName ← Deserializer.readString
      let mFn ← Deserializer.readFunction
      pure (mName, mFn) : Deserializer.Reader (String × CompiledFunction))
      ((.sbytes m.1 :: Serializer.writeFunction m.2) ++ rest) =
      .ok ((m.1, normFun m.2), rest) := by
  simp [readerBindApply, readerPureApply, readString_cons, readFunction_write]

/-- Helper: reading back one serialized constant yields its normalized
form. -/
theorem readValue_write (v : Value) (its rest : List SItem)
    (h : Serializer.writeValue v = .ok its) :
    Deserializer.readValue (its ++ rest) = .ok (normValue v, rest) := by
  cases v with
  | none =>
    simp only [Serializer.writeValue, Except.ok.injEq] at h
    subst h
    simp [Deserializer.readValue, readerBindApply, readerPureApply, readByte_cons,
      normValue]
  | int q =>
    simp only [Serializer.writeValue, Except.ok.injEq] at h
    subst h
    simp [Deserializer.readValue, readerBindApply, readerPureApply, readByte_cons,
      readDouble_cons, normValue]
  | float q =>
    simp only [Serializer.writeValue, Except.ok.injEq] at h
    subst h
    simp [Deserializer.readValue, readerBindApply, readerPureApply, readByte_cons,
      readDouble_cons, normValue]
  | string s =>
    simp only [Serializer.writeValue, Except.ok.injEq] at h
    subst h
    simp [Deserializer.readValue, readerBindApply, readerPureApply, readByte_cons,
      readString_cons, normValue]
  | bool b =>
    simp only [Serializer.writeValue, Except.ok.injEq] at h
    subst h
    cases b <;>
      simp [Deserializer.readValue, readerBindApply, readerPureApply, readByte_cons,
        normValue]
  | function fv =>
    cases fv with
    | compiled f =>
      simp only [Serializer.writeValue, Except.ok.injEq] at h
      subst h
      simp [Deserializer.readValue, readerBindApply, readerPureApply, readByte_cons,
        readFunction_write, normValue]
    | builtin b => simp [Serializer.writeValue] at h
  | cls c =>
    simp only [Serializer.writeValue, Except.ok.injEq] at h
    subst h
    have hM := readN_flatMap (fun m => .sbytes m.1 :: Serializer.writeFunction m.2)
      (do
        let mName ← Deserializer.readString
        let mFn ← Deserializer.readFunction
        pure (mName, mFn))
      (fun m => (m.1, normFun m.2)) (fun a r => readMethod_write a r) c.methods
    simp [Deserializer.readValue, readerBindApply, readerPureApply, readByte_cons,
      readU32_cons, readString_cons, List.append_assoc, List.cons_append,
      readN_sbytes, hM, normValue]
  | list xs => simp [Serializer.writeValue] at h
  | map entries => simp [Serializer.writeValue] at h
  | closure fn cells => simp [Serializer.writeValue] at h
  | boundMethod r mth => simp [Serializer.writeValue] at h
  | inst c a => simp [Serializer.writeValue] at h

/-- Helper: reading back the serialized constant pool. -/
theorem serializeValues_write (vs : List Value) (its rest : List SItem)
    (h : Serializer.serializeValues vs = .ok its) :
    Deserializer.readN vs.length Deserializer.readValue (its ++ rest) =
      .ok (vs.map normValue, rest) := by
  induction vs generalizing its rest with
  | nil =>
    simp only [Serializer.serializeValues, Except.ok.injEq] at h
    subst h
    simp [Deserializer.readN, readerPureApply]
  | cons v vs ih =>
    simp only [Serializer.serializeValues, Bind.bind, Except.bind] at h
    cases hv : Serializer.writeValue v with
    | error e => simp [hv] at h
    | ok i =>
      simp only [hv] at h
      cases hvs : Serializer.serializeValues vs with
      | error e => simp [hvs] at h
      | ok r =>
        simp only [hvs, Except.ok.injEq] at h
        subst h
        simp only [List.length_cons, Deserializer.readN, readerBindApply,
          List.append_assoc, readValue_write v i (r ++ rest) hv, ih r rest hvs,
          readerPureApply, List.map_cons]

/-- Helper: serialization succeeds on an all-serializable constant pool. -/
theorem serializeValues_ok (vs : List Value) (h : vs.all serializableValue = true) :
    ∃ its, Serializer.serializeValues vs = .ok its := by
  induction vs with
  | nil => exact ⟨[], rfl⟩
  | cons v vs ih =>
    simp only [List.all_cons, Bool.and_eq_true] at h
    obtain ⟨hv, hvs⟩ := h
    obtain ⟨r, hr⟩ := ih hvs
    have : ∃ i, Serializer.writeValue v = .ok i := by
      cases v with
      | function fv => cases fv with
        | compiled f => exact ⟨_, rfl⟩
        | builtin b => simp [serializableValue] at hv
      | none => exact ⟨_, rfl⟩
      | int q => exact ⟨_, rfl⟩
      | float q => exact ⟨_, rfl⟩
      | string s => exact ⟨_, rfl⟩
      | bool b => exact ⟨_, rfl⟩
      | cls c => exact ⟨_, rfl⟩
      | list xs => simp [serializableValue] at hv
      | map entries => simp [serializableValue] at hv
      | closure fn cells => simp [serializableValue] at hv
      | boundMethod r m => simp [serializableValue] at hv
      | inst c a => simp [serializableValue] at hv
    obtain ⟨i, hi⟩ := this
    exact ⟨i ++ r, by simp [Serializer.serializeValues, Bind.bind, Except.bind, hi, hr]⟩

/-- Helper: the full round trip produces the normalized module. -/
theorem serialize_roundtrip (m : CompiledModule) (its : List SItem)
    (h : Serializer.serialize m = .ok its) :
    Deserializer.deserializeModule its = .ok (normModule m) := by
  simp only [Serializer.serialize, Bind.bind, Except.bind] at h
  cases hc : Serializer.serializeValues m.constants with
  | error e => simp [hc] at h
  | ok consts =>
    simp only [hc, Except.ok.injEq] at h
    subst h
    have hG := readN_sbytes m.globals
    have hF := readN_flatMap Serializer.writeFunction Deserializer.readFunction
      normFun (fun a r => readFunction_write a r) m.functions
    have hI := readN_flatMap Serializer.writeInstruction Deserializer.readInstruction
      normInstr (fun a r => readInstruction_write a r) m.mainCode
    have hC := fun rest => serializeValues_write m.constants consts rest hc
    have hI0 := hI []
    rw [List.append_nil] at hI0
    simp [Deserializer.deserializeModule, Deserializer.deserialize, readerBindApply,
      readerPureApply, readString_cons, readU16_cons, readU32_cons,
      List.append_assoc, List.cons_append, hC, hG, hF, hI, hI0, normModule]

/-- Helper: an instruction with an explicit operand is unchanged by
normalization. -/
theorem normInstr_hasArg (i : Instruction) (h : hasArg i = true) : normInstr i = i := by
  obtain ⟨op, arg⟩ := i
  cases arg with
  | none => simp [hasArg] at h
  | some a => rfl

/-- Helper: exact code is unchanged by normalization. -/
theorem normCode_all (code : List Instruction) (h : code.all hasArg = true) :
    code.map normInstr = code := by
  induction code with
  | nil => rfl
  | cons i rest ih =>
    simp only [List.all_cons, Bool.and_eq_true] at h
    simp [normInstr_hasArg i h.1, ih h.2]

/-- Helper: an exact function is unchanged by normalization. -/
theorem normFun_exact (f : CompiledFunction) (h : exactFun f = true) : normFun f = f := by
  obtain ⟨name, arity, localCount, upvalueCount, upvalues, code⟩ := f
  simp only [exactFun, Bool.and_eq_true, beq_iff_eq] at h
  simp [normFun, h.1, normCode_all code h.2]

/-- Helper: an exact constant is unchanged by normalization. -/
theorem normValue_exact (v : Value) (h : exactValue v = true) : normValue v = v := by
  cases v with
  | function fv =>
    cases fv with
    | compiled f => simp [normValue, normFun_exact f (by simpa [exactValue] using h)]
    | builtin b => rfl
  | cls c =>
    obtain ⟨name, fields, methods⟩ := c
    simp only [exactValue] at h
    have : methods.map (fun m => (m.1, normFun m.2)) = methods := by
      induction methods with
      | nil => rfl
      | cons m rest ih =>
        simp only [List.all_cons, Bool.and_eq_true] at h
        simp [normFun_exact m.2 h.1, ih h.2]
    simp [normValue, this]
  | none => rfl
  | int q => rfl
  | float q => rfl
  | string s => rfl
  | bool b => rfl
  | list xs => rfl
  | map entries => rfl
  | closure fn cells => rfl
  | boundMethod r m => rfl
  | inst c a => rfl

/-- Helper: an exact module is unchanged by normalization. -/
theorem normModule_exact (m : CompiledModule) (h : exactModule m = true) :
    normModule m = m := by
  obtain ⟨constants, globals, functions, mainCode⟩ := m
  simp only [exactModule, Bool.and_eq_true] at h
  obtain ⟨⟨hc, hf⟩, hm⟩ := h
  have hC : constants.map normValue = constants := by
    induction constants with
    | nil => rfl
    | cons v rest ih =>
      simp only [List.all_cons, Bool.and_eq_true] at hc
      simp [normValue_exact v hc.1.2, ih hc.2]
  have hF : functions.map normFun = functions := by
    induction functions with
    | nil => rfl
    | cons f rest ih =>
      simp only [List.all_cons, Bool.and_eq_true] at hf
      simp [normFun_exact f hf.1, ih hf.2]
  simp [normModule, hC, hF, normCode_all mainCode hm]

/-- C4 (amended): one serialize/deserialize pass reproduces a module *up
to normalization* — every absent instruction operand comes back as `0`
and every function's `upvalueCount` field comes back as the length of its
descriptor array (the serializer writes `fn.upvalues.length`, never the
field).  For modules that are *exact* — serializable constants, all
operands explicit, `upvalueCount` agreeing with the descriptor array
(the spec's §3 invariant), in every function including those inside
constants — the round trip is the identity.  Serialization itself
succeeds whenever every constant is serializable. -/
theorem C4_theorem :
    (∀ (m : CompiledModule) (its : List SItem), Serializer.serialize m = .ok its →
      Deserializer.deserializeModule its = .ok (normModule m)
        ∧ (exactModule m = true → Deserializer.deserializeModule its = .ok m))
    ∧ (∀ m : CompiledModule, m.constants.all serializableValue = true →
      ∃ its, Serializer.serialize m = .ok its) := by
  constructor
  · intro m its h
    refine ⟨serialize_roundtrip m its h, fun hx => ?_⟩
    rw [serialize_roundtrip m its h, normModule_exact m hx]
  · intro m h
    obtain ⟨consts, hc⟩ := serializeValues_ok m.constants h
    refine ⟨[.sbytes "UABC", .u16 1, .u32 m.constants.length] ++ consts
      ++ [.u32 m.globals.length] ++ m.globals.map SItem.sbytes
      ++ [.u32 m.functions.length] ++ m.functions.flatMap Serializer.writeFunction
      ++ [.u32 m.mainCode.length] ++ m.mainCode.flatMap Serializer.writeInstruction, ?_⟩
    simp [Serializer.serialize, Bind.bind, Except.bind, hc]

/-- C4 (witness): the exact module `witC4mod` (all seven serializable
constant tags, a function table entry, a global, explicit operands)
round-trips to itself. -/
theorem C4_witness :
    Serializer.serialize witC4mod = .ok witC4items
      ∧ Deserializer.deserializeModule witC4items = .ok witC4mod
      ∧ witC4mod.constants.all serializableValue = true := by
  have h : Serializer.serialize witC4mod = .ok witC4items := rfl
  exact ⟨h, (C4_theorem.1 witC4mod witC4items h).2 rfl, rfl⟩

/-- C4 (counterexample): a module whose one instruction has *no* operand
(as the compiler emits for `ADD`) does not round-trip to itself: the
operand comes back as `some 0`, so `deserialize (serialize m) ≠ m`,
refuting exact reproduction "including every instruction's opcode and
operand" for all modules with serializable constants. -/
theorem C4_counterexample :
    Serializer.serialize cexC4mod =
      .ok [.sbytes "UABC", .u16 1, .u32 0, .u32 0, .u32 0, .u32 1,
           .byte 0x10, .u32 0]
      ∧ Deserializer.deserializeModule
          [.sbytes "UABC", .u16 1, .u32 0, .u32 0, .u32 0, .u32 1,
           .byte 0x10, .u32 0] =
          .ok { constants := [], globals := [], functions := [],
                mainCode := [⟨OpCode.ADD, some 0⟩] }
      ∧ ({ constants := [], globals := [], functions := [],
           mainCode := [⟨OpCode.ADD, some 0⟩] } : CompiledModule) ≠ cexC4mod := by
  refine ⟨rfl, rfl, ?_⟩
  simp [cexC4mod]
